import Mathlib

/-!
Verification development for the Akimori backend.

Shallow embedding of the claim-relevant parts of the repository:
  - `users/leveling.py` : XP/level tables and `level_for_xp` (binary search
    via `bisect_right` over the precomputed cumulative table).
  - `economy/models.py` + `economy/services.py` : wallets, the transaction
    ledger, and the `deposit` / `withdraw` / `transfer` services.
  - `promo/models.py` + `promo/services.py` : promo codes, redemptions and
    the reserve / apply / cancel lifecycle.
  - `chats/consumers.py` : the WebSocket JSON message protocol.

Database semantics are modelled explicitly: each Django service function is
wrapped in `transaction.atomic`, so a raised exception rolls the whole call
back.  We therefore embed every service as a function from a state to
`Except Err (result × state)`: an `Except.error` outcome carries no state,
meaning the database state is unchanged (full rollback).  Row locks
(`select_for_update`) serialize the operations, so the single-threaded
state-passing semantics is the faithful one.  `timezone.now()` is passed in
as an explicit `now : Nat` parameter; `DateTimeField` values are `Nat`
timestamps.
-/

/-- Characters stripped by Python `str.strip()` restricted to the ASCII
whitespace the services ever see; operating on the character list keeps the
function computable by the kernel (Lean's own String.trim recurses on byte
positions and does not reduce definitionally). -/
def stripChars (l : List Char) : List Char :=
  ((l.dropWhile Char.isWhitespace).reverse.dropWhile Char.isWhitespace).reverse

/-- Embedding of Python `str.strip()`. -/
def pyStrip (s : String) : String := ⟨stripChars s.data⟩

/-- Embedding of Python `str.upper()` (ASCII case mapping, which covers
every promo code in scope). -/
def pyUpper (s : String) : String := ⟨s.data.map Char.toUpper⟩

namespace Leveling

/-- Import-time precomputation of `TOTAL_XP_TABLE` from `users/leveling.py`:
`TOTAL_XP_TABLE[n] = TOTAL_XP_TABLE[n-1] + round(100 * n ** 1.5)` with
`TOTAL_XP_TABLE[0] = 0`.  The float expression `round(100 * n ** 1.5)` agrees
with the exact real rounding of `100·n^1.5` for every `n ≤ 30` (no value is
within 1e-9 of a half-integer), so the table below is the exact content of
the Python list at import time. -/
def TOTAL_XP_TABLE : List Int :=
  [0, 100, 383, 903, 1703, 2821, 4291, 6143, 8406, 11106, 14268, 17916,
   22073, 26760, 31998, 37807, 44207, 51216, 58853, 67135, 76079, 85702,
   96021, 107051, 118809, 131309, 144566, 158596, 173412, 189029, 205461]

/-- MAX_LEVEL = 30 from `users/leveling.py`. -/
def MAX_LEVEL : Int := 30

/-- Fuel-indexed core of CPython `bisect.bisect_right`:
`while lo < hi: mid = (lo+hi)//2; if x < a[mid]: hi = mid else: lo = mid+1`.
Each iteration shrinks `hi - lo` by at least one, so fuel `a.length` is
always sufficient; the fuel only makes the recursion structural. -/
def bisectGo (a : List Int) (x : Int) : Nat → Nat → Nat → Nat
  | 0, lo, _ => lo
  | fuel + 1, lo, hi =>
    if lo < hi then
      let mid := (lo + hi) / 2
      if x < a.getD mid 0 then
        bisectGo a x fuel lo mid
      else
        bisectGo a x fuel (mid + 1) hi
    else
      lo

/-- CPython `bisect.bisect_right(a, x)` with default `lo = 0`, `hi = len(a)`. -/
def bisect_right (a : List Int) (x : Int) : Nat :=
  bisectGo a x a.length 0 a.length

/-- Embedding of `total_xp_for_level` from `users/leveling.py`. -/
def total_xp_for_level (level : Int) : Int :=
  if level ≤ 0 then 0
  else if level ≥ MAX_LEVEL then TOTAL_XP_TABLE.getD 30 0
  else TOTAL_XP_TABLE.getD level.toNat 0

/-- Embedding of `level_for_xp` from `users/leveling.py`:
`bisect_right(TOTAL_XP_TABLE, xp) - 1` clamped to `[0, MAX_LEVEL]`, with the
`xp <= 0` and `xp >= TOTAL_XP_TABLE[MAX_LEVEL]` fast paths. -/
def level_for_xp (xp : Int) : Int :=
  if xp ≤ 0 then 0
  else if xp ≥ TOTAL_XP_TABLE.getD 30 0 then MAX_LEVEL
  else max 0 (min MAX_LEVEL ((bisect_right TOTAL_XP_TABLE xp : Int) - 1))

/-- Kernel-computable strict-ascent check for the table (the derived
`Decidable` instance for `List.Chain'` is stated with `Eq.rec` and does not
reduce). -/
def sortedLtB : List Int → Bool
  | [] => true
  | [_] => true
  | a :: b :: t => decide (a < b) && sortedLtB (b :: t)

end Leveling

namespace Econ

/-- Currency choices from `economy/models.py` (`Currency.RUB`, `Currency.AKI`). -/
inductive Currency
  | RUB
  | AKI
deriving DecidableEq, Repr

/-- Transaction types from `economy/models.py` (`TxType`). -/
inductive TxType
  | deposit
  | withdraw
  | transfer_out
  | transfer_in
  | adjust
deriving DecidableEq, Repr

/-- A row of the `Wallet` table (`economy/models.py`).  `pk` is the primary
key, `balance` is stored in minor units as a big integer. -/
structure Wallet where
  pk : Nat
  currency : Currency
  balance : Int
deriving DecidableEq, Repr

/-- A row of the `Transaction` ledger table (`economy/models.py`).  The UUID
primary key is modelled as a `Nat` drawn from a fresh counter; `related_tx`
holds the id of the paired row of a transfer. -/
structure Transaction where
  id : Nat
  walletId : Nat
  tx_type : TxType
  amount : Int
  idempotency_key : Option String
  related_tx : Option Nat
deriving DecidableEq, Repr

/-- Errors raised by the economy services: Django `ValidationError` (with its
message), the `InsufficientFunds` domain exception, `DoesNotExist` from
`.get(pk=...)`, and `IntegrityError` from the database unique constraint on
`Transaction.idempotency_key`. -/
inductive EconError
  | validation (msg : String)
  | insufficientFunds
  | doesNotExist
  | integrityError
deriving DecidableEq, Repr

/-- The database state seen by the economy services: the wallet rows, the
transaction ledger rows, and a fresh-id counter for new ledger rows. -/
structure EconState where
  wallets : List Wallet
  txs : List Transaction
  nextTxId : Nat
deriving DecidableEq, Repr

/-- Result of an economy service call with `transaction.atomic` semantics:
on error the transaction rolls back, so the error outcome carries no state
and the database is left as it was. -/
abbrev EconResult (α : Type) := Except EconError (α × EconState)

/-- The database state after a call: the new state on success, the original
state on a raised exception (rollback of the atomic block). -/
def stateAfter {α : Type} (r : EconResult α) (s : EconState) : EconState :=
  match r with
  | .ok (_, s') => s'
  | .error _ => s

/-- Lookup of a wallet row by primary key (`Wallet.objects.get(pk=...)` /
`select_for_update().get(pk=...)`). -/
def findWallet (s : EconState) (pk : Nat) : Option Wallet :=
  s.wallets.find? (fun w => w.pk == pk)

/-- UPDATE of a wallet row: every row with the given pk is replaced (pks are
unique in the database; theorems that need uniqueness assume it). -/
def putWallet (s : EconState) (w : Wallet) : EconState :=
  { s with wallets := s.wallets.map (fun x => if x.pk == w.pk then w else x) }

/-- The `Transaction.objects.filter(idempotency_key=key).first()` query used
by `deposit` and `withdraw`. -/
def findTxByKey (s : EconState) (key : String) : Option Transaction :=
  s.txs.find? (fun t => t.idempotency_key == some key)

/-- The `Transaction.objects.filter(idempotency_key=key,
tx_type=TxType.TRANSFER_OUT).first()` query used by `transfer`. -/
def findTransferOutByKey (s : EconState) (key : String) : Option Transaction :=
  s.txs.find? (fun t => t.idempotency_key == some key && t.tx_type == TxType.transfer_out)

/-- `Transaction.objects.create(...)`: inserts a fresh ledger row.  The
database unique constraint on `idempotency_key` (`unique=True`, NULLs
exempt) raises `IntegrityError` when a non-null key is already present. -/
def createTx (s : EconState) (walletId : Nat) (ty : TxType) (amount : Int)
    (key : Option String) (rel : Option Nat) : EconResult Transaction :=
  match key with
  | some k =>
    if s.txs.any (fun t => t.idempotency_key == some k) then
      .error .integrityError
    else
      let t : Transaction :=
        { id := s.nextTxId, walletId := walletId, tx_type := ty, amount := amount,
          idempotency_key := some k, related_tx := rel }
      .ok (t, { s with txs := s.txs ++ [t], nextTxId := s.nextTxId + 1 })
  | none =>
    let t : Transaction :=
      { id := s.nextTxId, walletId := walletId, tx_type := ty, amount := amount,
        idempotency_key := none, related_tx := rel }
    .ok (t, { s with txs := s.txs ++ [t], nextTxId := s.nextTxId + 1 })

/-- Embedding of `normalize_amount` (`economy/models.py`) on the integer
path: the value must be strictly positive, otherwise `ValidationError`.
(The str/float/Decimal parsing branches concern Python type coercion only;
every claim quantifies over integer amounts.) -/
def normalize_amount (amount : Int) : Except EconError Int :=
  if amount ≤ 0 then .error (.validation "Amount must be > 0")
  else .ok amount

/-- Embedding of `Wallet.can_debit` (`economy/models.py`). -/
def can_debit (w : Wallet) (amount : Int) : Bool :=
  amount > 0 && w.balance ≥ amount

/-- Embedding of `deposit` (`economy/services.py`).  Order of effects matches
the source: normalize, idempotency-key replay check, locked re-read of the
wallet, balance update, ledger row insert. -/
def deposit (s : EconState) (walletPk : Nat) (amount : Int)
    (idem : Option String) : EconResult Transaction :=
  match normalize_amount amount with
  | .error e => .error e
  | .ok amt =>
  match idem with
  | some k =>
    match findTxByKey s k with
    | some existing =>
      if existing.walletId != walletPk || existing.tx_type != TxType.deposit
          || existing.amount != amt then
        .error (.validation "Idempotency key already used for another operation")
      else
        .ok (existing, s)
    | none =>
      match findWallet s walletPk with
      | none => .error .doesNotExist
      | some w =>
        let s := putWallet s { w with balance := w.balance + amt }
        createTx s walletPk TxType.deposit amt idem none
  | none =>
    match findWallet s walletPk with
    | none => .error .doesNotExist
    | some w =>
      let s := putWallet s { w with balance := w.balance + amt }
      createTx s walletPk TxType.deposit amt idem none

/-- Embedding of `withdraw` (`economy/services.py`): like `deposit` but with
the `can_debit` balance check raising `InsufficientFunds`. -/
def withdraw (s : EconState) (walletPk : Nat) (amount : Int)
    (idem : Option String) : EconResult Transaction :=
  match normalize_amount amount with
  | .error e => .error e
  | .ok amt =>
  match idem with
  | some k =>
    match findTxByKey s k with
    | some existing =>
      if existing.walletId != walletPk || existing.tx_type != TxType.withdraw
          || existing.amount != amt then
        .error (.validation "Idempotency key already used for another operation")
      else
        .ok (existing, s)
    | none =>
      match findWallet s walletPk with
      | none => .error .doesNotExist
      | some w =>
        if !can_debit w amt then
          .error .insufficientFunds
        else
          let s := putWallet s { w with balance := w.balance - amt }
          createTx s walletPk TxType.withdraw amt idem none
  | none =>
    match findWallet s walletPk with
    | none => .error .doesNotExist
    | some w =>
      if !can_debit w amt then
        .error .insufficientFunds
      else
        let s := putWallet s { w with balance := w.balance - amt }
        createTx s walletPk TxType.withdraw amt idem none

/-- The `TransferResult` dataclass (`economy/models.py`): both transaction
fields are optional because an idempotent replay recovers `in_tx` through
the nullable `related_tx` link. -/
structure TransferResult where
  out_tx : Option Transaction
  in_tx : Option Transaction
  amount : Int
deriving DecidableEq, Repr

/-- Lookup of a ledger row by id, used to resolve a `related_tx` reference. -/
def findTxById (s : EconState) (id : Nat) : Option Transaction :=
  s.txs.find? (fun t => t.id == id)

/-- Embedding of `transfer` (`economy/services.py`).  Order of effects
matches the source: currency check, same-wallet check, normalize,
idempotent replay of the OUT row (validating source wallet and amount
only), locked read of both wallets, balance check, debit + OUT row insert,
credit + IN row insert (linked to OUT), then back-link of the OUT row. -/
def transfer (s : EconState) (fromPk toPk : Nat) (amount : Int)
    (idem_out idem_in : Option String) : EconResult TransferResult :=
  match findWallet s fromPk, findWallet s toPk with
  | some fw, some tw =>
    if fw.currency != tw.currency then
      .error (.validation "Transfer requires a single currency")
    else if fromPk == toPk then
      .error (.validation "Cannot transfer to the same wallet")
    else
      match normalize_amount amount with
      | .error e => .error e
      | .ok amt =>
      match (match idem_out with
             | some k => findTransferOutByKey s k
             | none => none) with
      | some existing_out =>
        if existing_out.walletId != fromPk || existing_out.amount != amt then
          .error (.validation "Idempotency key already used for another operation")
        else
          .ok ({ out_tx := some existing_out,
                 in_tx := existing_out.related_tx.bind (findTxById s),
                 amount := existing_out.amount }, s)
      | none =>
        if !can_debit fw amt then
          .error .insufficientFunds
        else
          let s1 := putWallet s { fw with balance := fw.balance - amt }
          match createTx s1 fromPk TxType.transfer_out amt idem_out none with
          | .error e => .error e
          | .ok (out_tx, s2) =>
            let s3 := putWallet s2 { tw with balance := tw.balance + amt }
            match createTx s3 toPk TxType.transfer_in amt idem_in (some out_tx.id) with
            | .error e => .error e
            | .ok (in_tx, s4) =>
              let out_tx2 : Transaction := { out_tx with related_tx := some in_tx.id }
              let s5 : EconState :=
                { s4 with
                  txs := s4.txs.map (fun t => if t.id == out_tx.id then out_tx2 else t) }
              .ok ({ out_tx := some out_tx2, in_tx := some in_tx, amount := amt }, s5)
  | _, _ => .error .doesNotExist

end Econ

namespace Promo

/-- Redemption statuses from `promo/models.py` (`PromoRedemption.Status`). -/
inductive RStatus
  | pending
  | applied
  | cancelled
  | expired
deriving DecidableEq, Repr

/-- Bonus types of `PromoBalanceBonus` (`promo/models.py`). -/
inductive BonusType
  | fixed
  | percent
deriving DecidableEq, Repr

/-- The optional one-to-one effect rows attached to a `PromoCode`
(`promo/models.py`): `PromoTopupDiscount`, `PromoBalanceBonus`,
`PromoItemGrant`, or none of them.  `bonus_value100` stores the two-decimal
`Decimal` field `bonus_value` in centi-units so Decimal arithmetic is exact.
Discount percentage/cap fields are omitted: the reservation flow only uses
`quote(...)["ok"]`, which depends on `min_topup_minor` alone. -/
inductive PromoEffect
  | noEffect
  | topupDiscount (min_topup_minor : Int)
  | balanceBonus (currency : Econ.Currency) (bonus_type : BonusType)
      (bonus_value100 : Int) (min_topup_minor : Option Int)
  | itemGrant (itemId : Nat)
deriving DecidableEq, Repr

/-- A row of the `PromoCode` table (`promo/models.py`).  `code` is stored
normalized (stripped/upper-cased by `PromoCode.save`).  Timestamps are `Nat`
ticks measured in minutes (matching `timedelta(minutes=...)`). -/
structure PromoCode where
  id : Nat
  code : String
  is_active : Bool
  starts_at : Nat
  ends_at : Nat
  max_total_uses : Nat
  max_uses_per_user : Nat
  uses_count : Nat
  effect : PromoEffect
deriving DecidableEq, Repr

/-- A row of the `PromoRedemption` table (`promo/models.py`).  The JSON
`payload` column is write-only bookkeeping never read back by any service,
so it has no footprint in the model. -/
structure Redemption where
  id : Nat
  promoId : Nat
  userId : Nat
  status : RStatus
  context : String
  topup_amount_minor : Option Int
  payment_id : String
  topup_id : String
  idempotency_key : String
  reserved_until : Option Nat
  redeemed_at : Nat
  applied_at : Option Nat
deriving DecidableEq, Repr

/-- The database state seen by the promo services: promo codes, redemption
rows, the cosmetic-item inventory rows `(userId, itemId)` touched by
`PromoItemGrant` effects, and a fresh-id counter for redemptions.  The
wallet write performed by a `PromoBalanceBonus` effect goes through
`economy.services.deposit` and lives in the economy model. -/
structure PState where
  promos : List PromoCode
  redemptions : List Redemption
  inventory : List (Nat × Nat)
  nextRedId : Nat
deriving DecidableEq, Repr

/-- Errors raised by the promo services: `ValidationError({field: reason})`
and `DoesNotExist` from `.get(pk=...)`. -/
inductive PromoError
  | validation (field : String) (reason : String)
  | doesNotExist
deriving DecidableEq, Repr

/-- Result of a promo service call, with the same `transaction.atomic`
rollback semantics as `Econ.EconResult`: an error outcome leaves the
database untouched. -/
abbrev PromoResult (α : Type) := Except PromoError (α × PState)

/-- The database state after a promo service call (rollback on error). -/
def pStateAfter {α : Type} (r : PromoResult α) (s : PState) : PState :=
  match r with
  | .ok (_, s') => s'
  | .error _ => s

/-- RESERVE_TTL_MINUTES from `promo/services.py`. -/
def RESERVE_TTL_MINUTES : Nat := 20

/-- The `.order_by("-redeemed_at").first()` queries: the row with the
largest `redeemed_at` (ties resolved by database order; the fold keeps the
earlier row, no claim depends on the tie). -/
def latestByRedeemedAt (l : List Redemption) : Option Redemption :=
  l.foldl
    (fun acc r =>
      match acc with
      | none => some r
      | some a => if r.redeemed_at > a.redeemed_at then some r else some a)
    none

/-- The `reserved_until__lt=now` lookup condition (NULL never matches). -/
def reservedBefore (r : Redemption) (now : Nat) : Bool :=
  match r.reserved_until with
  | some t => t < now
  | none => false

/-- The `reserved_until__gt=now` lookup condition (NULL never matches). -/
def reservedAfter (r : Redemption) (now : Nat) : Bool :=
  match r.reserved_until with
  | some t => now < t
  | none => false

/-- Embedding of `PromoCode.can_user_redeem_applied` (`promo/models.py`):
active flag, validity window, total-use limit against `uses_count`, and the
per-user limit counted over APPLIED redemptions only. -/
def can_user_redeem_applied (s : PState) (p : PromoCode) (userId : Nat)
    (now : Nat) : Bool × String :=
  if !p.is_active then (false, "promo_inactive")
  else if !(p.starts_at ≤ now && now ≤ p.ends_at) then
    (false, "promo_expired_or_not_started")
  else if p.max_total_uses ≤ p.uses_count then (false, "promo_limit_reached")
  else if p.max_uses_per_user ≤
      (s.redemptions.countP
        (fun r => r.userId == userId && r.promoId == p.id && r.status == RStatus.applied)) then
    (false, "already_redeemed")
  else (true, "ok")

/-- Embedding of `PromoBalanceBonus.calc_bonus_minor` (`promo/models.py`).
`int(...)` on a non-negative exact Decimal is truncation toward zero
(`Int.tdiv`). -/
def calc_bonus_minor (bonus_type : BonusType) (bonus_value100 : Int)
    (min_topup_minor : Option Int) (topup_amount_minor : Option Int) :
    Except PromoError Int :=
  match bonus_type with
  | .fixed => .ok (Int.tdiv bonus_value100 100)
  | .percent =>
    match topup_amount_minor with
    | none => .error (.validation "code" "topup_amount_required")
    | some t =>
      match min_topup_minor with
      | some m =>
        if t < m then .error (.validation "code" "topup_too_small")
        else .ok (Int.tdiv (t * bonus_value100) 10000)
      | none => .ok (Int.tdiv (t * bonus_value100) 10000)

/-- Embedding of `PromoCode.apply_effect` (`promo/models.py`).  The
balance-bonus branch deposits into the user's wallet through the economy
service; that write leaves no footprint in the promo state, but its
`bonus_is_zero` guard (and `calc_bonus_minor`'s own errors) propagate.  The
item-grant branch mirrors the `Inventory` existence check and insert. -/
def apply_effect (s : PState) (p : PromoCode) (userId : Nat)
    (topup_amount_minor : Option Int) : Except PromoError PState :=
  match p.effect with
  | .balanceBonus _ bt v100 minT =>
    match calc_bonus_minor bt v100 minT topup_amount_minor with
    | .error e => .error e
    | .ok bonus =>
      if bonus ≤ 0 then .error (.validation "code" "bonus_is_zero")
      else .ok s
  | .itemGrant item =>
    if s.inventory.any (fun e => e == (userId, item)) then
      .error (.validation "code" "item_already_owned")
    else
      .ok { s with inventory := s.inventory ++ [(userId, item)] }
  | .topupDiscount _ => .error (.validation "code" "topup_discount_requires_quote")
  | .noEffect => .error (.validation "code" "promo_has_no_effect")

/-- Embedding of `reserve_promo_for_topup` (`promo/services.py`).  Order of
effects matches the source: code normalization, `payment_id` check,
idempotency-key replay, promo lookup, `can_user_redeem_applied`, lazy bulk
expiry of stale PENDING rows, the oversubscription guard counting active
PENDING reservations, per-user active-reservation reuse, row creation, and
the effect-specific payload step (whose `topup_discount` failure cancels the
fresh row and raises, which the atomic block then rolls back). -/
def reserve_promo_for_topup (s : PState) (now : Nat) (code : String)
    (userId : Nat) (topup_amount_minor : Int) (payment_id : String)
    (topup_id : String) (idempotency_key : String) : PromoResult Redemption :=
  let codeN := pyUpper (pyStrip code)
  if codeN == "" then .error (.validation "code" "promo_required")
  else if payment_id == "" then .error (.validation "payment_id" "required")
  else
    match (if idempotency_key == "" then none
           else latestByRedeemedAt
             (s.redemptions.filter (fun r => r.idempotency_key == idempotency_key))) with
    | some existing => .ok (existing, s)
    | none =>
      match s.promos.find? (fun p => p.code == codeN) with
      | none => .error (.validation "code" "promo_not_found")
      | some promo =>
        match can_user_redeem_applied s promo userId now with
        | (false, reason) => .error (.validation "code" reason)
        | (true, _) =>
          let s1 : PState :=
            { s with
              redemptions := s.redemptions.map
                (fun r =>
                  if r.promoId == promo.id && r.status == RStatus.pending
                      && reservedBefore r now then
                    { r with status := RStatus.expired }
                  else r) }
          let active_pending : Nat :=
            s1.redemptions.countP
              (fun r => r.promoId == promo.id && r.status == RStatus.pending
                && reservedAfter r now)
          if promo.max_total_uses ≤ promo.uses_count + active_pending then
            .error (.validation "code" "promo_limit_reached")
          else
            match latestByRedeemedAt
                (s1.redemptions.filter
                  (fun r => r.promoId == promo.id && r.userId == userId
                    && r.status == RStatus.pending && reservedAfter r now)) with
            | some existing_user_pending => .ok (existing_user_pending, s1)
            | none =>
              let red : Redemption :=
                { id := s1.nextRedId, promoId := promo.id, userId := userId,
                  status := RStatus.pending, context := "topup",
                  topup_amount_minor := some topup_amount_minor,
                  payment_id := payment_id, topup_id := topup_id,
                  idempotency_key := idempotency_key,
                  reserved_until := some (now + RESERVE_TTL_MINUTES),
                  redeemed_at := now, applied_at := none }
              let s2 : PState :=
                { s1 with redemptions := s1.redemptions ++ [red],
                          nextRedId := s1.nextRedId + 1 }
              match promo.effect with
              | .topupDiscount minT =>
                if topup_amount_minor < minT then
                  .error (.validation "code" "topup_too_small")
                else .ok (red, s2)
              | _ => .ok (red, s2)

/-- Embedding of `apply_promo_after_payment_success` (`promo/services.py`).
The mid-transaction EXPIRED/CANCELLED status writes that precede a raise are
rolled back with the raise by the atomic block, so in the model those
branches are plain errors. -/
def apply_promo_after_payment_success (s : PState) (now : Nat)
    (payment_id : String) : PromoResult Redemption :=
  let pid := pyStrip payment_id
  if pid == "" then .error (.validation "payment_id" "required")
  else
    match latestByRedeemedAt
        (s.redemptions.filter (fun r => r.payment_id == pid)) with
    | none => .error (.validation "code" "redemption_not_found")
    | some red =>
      if red.status == RStatus.applied then .ok (red, s)
      else if red.status == RStatus.cancelled || red.status == RStatus.expired then
        .error (.validation "code" "redemption_not_active")
      else if reservedBefore red now then
        .error (.validation "code" "reservation_expired")
      else
        match s.promos.find? (fun p => p.id == red.promoId) with
        | none => .error .doesNotExist
        | some promo =>
          match can_user_redeem_applied s promo red.userId now with
          | (false, reason) => .error (.validation "code" reason)
          | (true, _) =>
            let effectStep : Except PromoError PState :=
              match promo.effect with
              | .balanceBonus _ _ _ _ =>
                apply_effect s promo red.userId red.topup_amount_minor
              | .itemGrant _ =>
                apply_effect s promo red.userId red.topup_amount_minor
              | _ => .ok s
            match effectStep with
            | .error e => .error e
            | .ok s1 =>
              let red2 : Redemption :=
                { red with status := RStatus.applied, applied_at := some now }
              let s2 : PState :=
                { s1 with
                  redemptions := s1.redemptions.map
                    (fun r => if r.id == red.id then red2 else r),
                  promos := s1.promos.map
                    (fun p =>
                      if p.id == promo.id then
                        { p with uses_count := p.uses_count + 1 }
                      else p) }
              .ok (red2, s2)

/-- Embedding of `cancel_promo_reservation` (`promo/services.py`).  The
function never raises: it returns `none` when nothing matches, leaves an
APPLIED redemption untouched, and otherwise rewrites the row to CANCELLED
(regardless of whether it was PENDING, EXPIRED or already CANCELLED). -/
def cancel_promo_reservation (s : PState) (payment_id : String) :
    Option Redemption × PState :=
  let pid := pyStrip payment_id
  if pid == "" then (none, s)
  else
    match latestByRedeemedAt
        (s.redemptions.filter (fun r => r.payment_id == pid)) with
    | none => (none, s)
    | some red =>
      if red.status == RStatus.applied then (some red, s)
      else
        let red2 : Redemption := { red with status := RStatus.cancelled }
        (some red2,
          { s with
            redemptions := s.redemptions.map
              (fun r => if r.id == red.id then red2 else r) })

end Promo

namespace Chat

/-- JSON scalar values as they reach `receive_json` (`chats/consumers.py`).
Only scalars are needed: the consumer reads `action` (string), `text`
(string) and `value` (arbitrary, passed to `bool(...)`). -/
inductive JVal
  | jnull
  | jbool (b : Bool)
  | jstr (s : String)
  | jnum (n : Int)
deriving DecidableEq, Repr

/-- Python truthiness (`bool(v)`) on the modelled JSON scalars. -/
def truthy : JVal → Bool
  | .jnull => false
  | .jbool b => b
  | .jstr s => s ≠ ""
  | .jnum n => n ≠ 0

/-- The fields of an incoming JSON object that `receive_json` reads.
`none` models an absent key (or JSON null): `content.get(...)` returns
`None` for both.  `text` is kept a string because the consumer immediately
calls `.strip()` on it. -/
structure IncomingMsg where
  action : Option String
  text : Option String
  value : Option JVal
deriving DecidableEq, Repr

/-- Observable effects of one `receive_json` call: the `Message` row written
by `save_message`, and the events fanned out to the conversation group
(which the `chat_message` / `chat_typing` handlers forward verbatim as
`{"type": "message"|"typing", "payload": ...}`). -/
inductive OutEvent
  | message (senderId : Nat) (text : String)
  | typing (userId : Option Nat) (value : Bool)
deriving DecidableEq, Repr

/-- Embedding of `ChatConsumer.receive_json` (`chats/consumers.py`) for an
authenticated participant with id `userId`.  Returns the list of saved
message texts and the list of broadcast events.  `(content.get("text") or
"").strip()` becomes `getD "" |> pyStrip`; `bool(content.get("value", False))`
becomes `truthy (getD (jbool false))`. -/
def receive_json (userId : Nat) (content : IncomingMsg) :
    List String × List OutEvent :=
  match content.action with
  | some "send_message" =>
    let text := pyStrip (content.text.getD "")
    if text == "" then ([], [])
    else ([text], [OutEvent.message userId text])
  | some "typing" =>
    ([], [OutEvent.typing (some userId) (truthy (content.value.getD (JVal.jbool false)))])
  | _ => ([], [])

end Chat

namespace Econ

/-- Decidable form of the non-negative-balance invariant (the
`wallet_balance_non_negative` CHECK constraint of `economy/models.py`). -/
def walletsNonneg (s : EconState) : Bool :=
  s.wallets.all (fun w => 0 ≤ w.balance)

/-- Concrete base state: three AKI wallets with balances 5, 0, 0 and an
empty ledger. -/
def exBase : EconState :=
  { wallets := [{ pk := 1, currency := Currency.AKI, balance := 5 },
                { pk := 2, currency := Currency.AKI, balance := 0 },
                { pk := 3, currency := Currency.AKI, balance := 0 }],
    txs := [], nextTxId := 0 }

/-- State after a first successful `withdraw(wallet 1, 5, key "k")` from
`exBase`: balance 0, one WITHDRAW ledger row carrying key "k". -/
def exAfterW : EconState := stateAfter (withdraw exBase 1 5 (some "k")) exBase

/-- State after a first successful `transfer(wallet 1 → wallet 2, 5,
idem_out "t", idem_in "t2")` from `exBase`. -/
def exAfterT : EconState :=
  stateAfter (transfer exBase 1 2 5 (some "t") (some "t2")) exBase

end Econ

namespace Promo

/-- One status step of `reserve_promo_for_topup` /
`apply_promo_after_payment_success`: a row keeps its status unless it was
PENDING, in which case it may move to APPLIED, CANCELLED or EXPIRED. -/
def stepStrictOk (r r2 : Redemption) : Bool :=
  r2.status == r.status ||
    (r.status == RStatus.pending &&
      (r2.status == RStatus.applied || r2.status == RStatus.cancelled
        || r2.status == RStatus.expired))

/-- One status step of `cancel_promo_reservation`: a row keeps its status
unless it was not APPLIED, in which case it may be rewritten to CANCELLED. -/
def stepCancelOk (r r2 : Redemption) : Bool :=
  r2.status == r.status ||
    (!(r.status == RStatus.applied) && r2.status == RStatus.cancelled)

/-- Every redemption row of `old` relates to every row of `new` with the
same primary key through `ok` (rows are identified by their id). -/
def redStep (ok : Redemption → Redemption → Bool) (old new : List Redemption) : Bool :=
  old.all (fun r => new.all (fun r2 => r2.id != r.id || ok r r2))

/-- Number of unexpired PENDING reservations of promo `pid` at time `now`
(the `active_pending` count of `reserve_promo_for_topup`). -/
def activePendingCount (s : PState) (pid : Nat) (now : Nat) : Nat :=
  s.redemptions.countP
    (fun r => r.promoId == pid && r.status == RStatus.pending && reservedAfter r now)

/-- Number of APPLIED redemptions of promo `pid` by user `uid` (the
per-user count of `can_user_redeem_applied`). -/
def appliedCountBy (s : PState) (pid uid : Nat) : Nat :=
  s.redemptions.countP
    (fun r => r.userId == uid && r.promoId == pid && r.status == RStatus.applied)

/-- The oversubscription bound for promo `pid`: its confirmed uses plus its
unexpired PENDING reservations never exceed `max_total_uses`. -/
def overSubBound (s : PState) (pid : Nat) (now : Nat) : Bool :=
  s.promos.all (fun p =>
    p.id != pid ||
      decide (p.uses_count + activePendingCount s p.id now ≤ p.max_total_uses))

/-- Specification of the `uses_count` effect of one
`apply_promo_after_payment_success` call: on error nothing is demanded
(rollback); on success either the found redemption was already APPLIED and
the whole state is unchanged, or it was PENDING and exactly the redemption's
promo has its `uses_count` incremented by one. -/
def applyUsesOk (s : PState) (now : Nat) (payment_id : String) : Bool :=
  match apply_promo_after_payment_success s now payment_id with
  | .error _ => true
  | .ok (red, s2) =>
    match latestByRedeemedAt
        (s.redemptions.filter (fun r => r.payment_id == pyStrip payment_id)) with
    | none => false
    | some red0 =>
      if red0.status == RStatus.applied then
        red == red0 && s2 == s
      else
        red0.status == RStatus.pending && red.status == RStatus.applied &&
          s2.promos ==
            s.promos.map (fun p =>
              if p.id == red0.promoId then { p with uses_count := p.uses_count + 1 }
              else p)

/-- Concrete promo code: active from tick 0 to 1000, two total uses, one
use per user, no attached effect row. -/
def exPromo : PromoCode :=
  { id := 1, code := "SALE", is_active := true, starts_at := 0, ends_at := 1000,
    max_total_uses := 2, max_uses_per_user := 1, uses_count := 0,
    effect := PromoEffect.noEffect }

/-- Concrete redemption of `exPromo` whose reservation TTL (tick 30) has
elapsed and whose status is EXPIRED. -/
def exRedExpired : Redemption :=
  { id := 0, promoId := 1, userId := 7, status := RStatus.expired,
    context := "topup", topup_amount_minor := some 500, payment_id := "pay1",
    topup_id := "", idempotency_key := "", reserved_until := some 30,
    redeemed_at := 10, applied_at := none }

/-- The same redemption still PENDING. -/
def exRedPending : Redemption := { exRedExpired with status := RStatus.pending }

/-- State holding `exPromo` and the EXPIRED redemption. -/
def exExpState : PState :=
  { promos := [exPromo], redemptions := [exRedExpired], inventory := [],
    nextRedId := 1 }

/-- State holding `exPromo` and the PENDING redemption whose TTL elapsed. -/
def exPendingState : PState :=
  { promos := [exPromo], redemptions := [exRedPending], inventory := [],
    nextRedId := 1 }

end Promo

/-- State after a first successful `deposit(wallet 2, 7, key "d")` from
`exBase` (used to exercise deposit replays). -/
def Econ.exAfterD : Econ.EconState :=
  Econ.stateAfter (Econ.deposit Econ.exBase 2 7 (some "d")) Econ.exBase

/-- State holding `exPromo` and no redemptions. -/
def Promo.exFreshState : Promo.PState :=
  { promos := [Promo.exPromo], redemptions := [], inventory := [], nextRedId := 0 }

/-- The promo with its total-use limit exhausted (`uses_count` = 2 =
`max_total_uses`). -/
def Promo.exFullPromo : Promo.PromoCode := { Promo.exPromo with uses_count := 2 }

/-- State holding the exhausted promo and no redemptions. -/
def Promo.exFullState : Promo.PState :=
  { promos := [Promo.exFullPromo], redemptions := [], inventory := [], nextRedId := 0 }

/-- The redemption row created by reserving `exPromo` for user 7 at tick 10
with payment "pay1". -/
def Promo.exReservedRed : Promo.Redemption :=
  { id := 0, promoId := 1, userId := 7, status := Promo.RStatus.pending,
    context := "topup", topup_amount_minor := some 500, payment_id := "pay1",
    topup_id := "", idempotency_key := "", reserved_until := some 30,
    redeemed_at := 10, applied_at := none }

/-- The state after that reservation. -/
def Promo.exReservedState : Promo.PState :=
  { promos := [Promo.exPromo], redemptions := [Promo.exReservedRed],
    inventory := [], nextRedId := 1 }

/-- Concrete incoming chat messages used as witnesses. -/
def Chat.exMsgHi : Chat.IncomingMsg :=
  { action := some "send_message", text := some "  hi ", value := none }

/-- A whitespace-only send_message. -/
def Chat.exMsgBlank : Chat.IncomingMsg :=
  { action := some "send_message", text := some "   ", value := none }

/-- A typing action whose value is a non-empty (truthy) string. -/
def Chat.exMsgTyping : Chat.IncomingMsg :=
  { action := some "typing", text := none, value := some (Chat.JVal.jstr "yes") }

/-- Claim C1, counterexample: a successful `transfer` call that is an
idempotent replay (the TRANSFER_OUT row with key "t" already exists)
returns `ok` but leaves the source balance at 0 instead of decreasing it by
the normalized amount 5, and writes no new ledger rows (the ledger still
has exactly the two rows of the first call).  This refutes the claim as
stated for "every successful call". -/
theorem transfer_replay_no_debit :
    Econ.transfer Econ.exAfterT 1 2 5 (some "t") (some "t2") =
      .ok ({ out_tx := some { id := 0, walletId := 1,
                              tx_type := Econ.TxType.transfer_out, amount := 5,
                              idempotency_key := some "t", related_tx := some 1 },
             in_tx := some { id := 1, walletId := 2,
                             tx_type := Econ.TxType.transfer_in, amount := 5,
                             idempotency_key := some "t2", related_tx := some 0 },
             amount := 5 }, Econ.exAfterT) ∧
    Econ.findWallet Econ.exAfterT 1 =
      some { pk := 1, currency := Econ.Currency.AKI, balance := 0 } ∧
    Econ.exAfterT.txs.length = 2 :=
  ⟨rfl, rfl, rfl⟩

/-- Claim C3, counterexample: after a successful `withdraw(wallet 1, 5, key
"k")` the balance is 0 < 5, yet a repeated call with the same key succeeds
(idempotent replay) instead of raising `InsufficientFunds`, refuting the
stated "if and only if". -/
theorem withdraw_replay_no_insufficient :
    Econ.findWallet Econ.exAfterW 1 =
      some { pk := 1, currency := Econ.Currency.AKI, balance := 0 } ∧
    Econ.withdraw Econ.exAfterW 1 5 (some "k") =
      .ok ({ id := 0, walletId := 1, tx_type := Econ.TxType.withdraw, amount := 5,
             idempotency_key := some "k", related_tx := none }, Econ.exAfterW) :=
  ⟨rfl, rfl⟩

/-- Claim C4, counterexample: a repeated `transfer` call whose destination
wallet differs from the recorded one (wallet 3 instead of wallet 2, same
key "t") returns the previously created pair successfully instead of
raising a `ValidationError`: the replay check of `transfer` validates only
the source wallet and the amount. -/
theorem transfer_replay_ignores_destination :
    Econ.transfer Econ.exAfterT 1 3 5 (some "t") (some "t9") =
      .ok ({ out_tx := some { id := 0, walletId := 1,
                              tx_type := Econ.TxType.transfer_out, amount := 5,
                              idempotency_key := some "t", related_tx := some 1 },
             in_tx := some { id := 1, walletId := 2,
                             tx_type := Econ.TxType.transfer_in, amount := 5,
                             idempotency_key := some "t2", related_tx := some 0 },
             amount := 5 }, Econ.exAfterT) :=
  rfl

/-- Claim C5, counterexample: `cancel_promo_reservation` called on a
redemption that already reached the terminal status EXPIRED rewrites it to
CANCELLED, so an EXPIRED redemption does change status again, refuting the
stated terminality. -/
theorem cancel_rewrites_expired :
    Promo.exRedExpired.status = Promo.RStatus.expired ∧
    (Promo.cancel_promo_reservation Promo.exExpState "pay1").1 =
      some { Promo.exRedExpired with status := Promo.RStatus.cancelled } ∧
    (Promo.cancel_promo_reservation Promo.exExpState "pay1").2.redemptions =
      [{ Promo.exRedExpired with status := Promo.RStatus.cancelled }] :=
  ⟨rfl, rfl, rfl⟩

/-- Claim C7: calling `apply_promo_after_payment_success` on a PENDING
redemption whose `reserved_until` (tick 30) is before `now` (tick 31)
raises `ValidationError({"code": "reservation_expired"})` with no effect
and no `uses_count` increment — but the EXPIRED status write that precedes
the raise is rolled back together with the whole atomic block, so the
redemption is still PENDING in the database afterwards, contradicting the
claim's "the redemption's status is set to EXPIRED". -/
theorem apply_expired_reservation_rolls_back :
    Promo.apply_promo_after_payment_success Promo.exPendingState 31 "pay1" =
      .error (.validation "code" "reservation_expired") ∧
    Promo.pStateAfter
        (Promo.apply_promo_after_payment_success Promo.exPendingState 31 "pay1")
        Promo.exPendingState = Promo.exPendingState ∧
    Promo.exPendingState.redemptions.map (fun r => r.status) =
      [Promo.RStatus.pending] :=
  ⟨rfl, rfl, rfl⟩

/-- Claim C9: `receive_json` implements the stated protocol.  For action
"send_message" it saves the stripped text and broadcasts exactly one
message event carrying it if and only if the stripped text is non-empty,
and does nothing on empty or whitespace-only text; for action "typing" it
broadcasts exactly one typing event carrying the sender's user id and the
truthiness of the "value" field. -/
theorem receive_json_protocol (userId : Nat) (content : Chat.IncomingMsg) :
    (content.action = some "send_message" →
      (Chat.receive_json userId content =
          ([pyStrip (content.text.getD "")],
            [Chat.OutEvent.message userId (pyStrip (content.text.getD ""))]) ↔
        pyStrip (content.text.getD "") ≠ "") ∧
      (pyStrip (content.text.getD "") = "" →
        Chat.receive_json userId content = ([], []))) ∧
    (content.action = some "typing" →
      Chat.receive_json userId content =
        ([], [Chat.OutEvent.typing (some userId)
                (Chat.truthy (content.value.getD (Chat.JVal.jbool false)))])) := by
  constructor
  · intro ha
    unfold Chat.receive_json
    rw [ha]
    by_cases ht : pyStrip (content.text.getD "") = ""
    · simp [ht]
    · simp [ht]
  · intro ha
    unfold Chat.receive_json
    rw [ha]
    simp

/-- Witness for the C9 theorem at concrete inputs: a padded "hi" is saved
and broadcast stripped, a whitespace-only text produces nothing, and a
typing action with a non-empty string value broadcasts `true`. -/
theorem receive_json_protocol_witness :
    Chat.receive_json 7 Chat.exMsgHi = (["hi"], [Chat.OutEvent.message 7 "hi"]) ∧
    Chat.receive_json 7 Chat.exMsgBlank = ([], []) ∧
    Chat.receive_json 9 Chat.exMsgTyping =
      ([], [Chat.OutEvent.typing (some 9) true]) :=
  ⟨((receive_json_protocol 7 Chat.exMsgHi).1 rfl).1.mpr (by decide),
   ((receive_json_protocol 7 Chat.exMsgBlank).1 rfl).2 (by decide),
   (receive_json_protocol 9 Chat.exMsgTyping).2 rfl⟩

namespace Econ

-- A successful normalize_amount returns the amount unchanged and positive.
theorem normalize_ok {amount amt : Int}
    (h : normalize_amount amount = .ok amt) : amt = amount ∧ 0 < amount := by
  unfold normalize_amount at h
  split at h
  · exact absurd h (by simp)
  · next hc =>
    refine ⟨?_, by omega⟩
    injection h with h2
    exact h2.symm

-- Shape of a successful ledger insert.
theorem createTx_ok {s : EconState} {wid : Nat} {ty : TxType} {amt : Int}
    {key : Option String} {rel : Option Nat} {t : Transaction} {s' : EconState}
    (h : createTx s wid ty amt key rel = .ok (t, s')) :
    s'.wallets = s.wallets ∧ s'.txs = s.txs ++ [t] ∧
      s'.nextTxId = s.nextTxId + 1 ∧
      t = { id := s.nextTxId, walletId := wid, tx_type := ty, amount := amt,
            idempotency_key := key, related_tx := rel } := by
  unfold createTx at h
  split at h
  · split at h
    · exact absurd h (by simp)
    · injection h with h1
      injection h1 with ht hs
      subst ht; subst hs
      exact ⟨rfl, rfl, rfl, rfl⟩
  · injection h with h1
    injection h1 with ht hs
    subst ht; subst hs
    exact ⟨rfl, rfl, rfl, rfl⟩

-- Membership and pk of a findWallet result.
theorem findWallet_mem {s : EconState} {pk : Nat} {w : Wallet}
    (h : findWallet s pk = some w) : w ∈ s.wallets ∧ w.pk = pk := by
  unfold findWallet at h
  refine ⟨List.mem_of_find?_eq_some h, ?_⟩
  have := List.find?_some h
  simpa using this

-- Any member of a non-negative wallet list has non-negative balance.
theorem balance_nonneg_of_mem {s : EconState} {w : Wallet}
    (h : walletsNonneg s = true) (hm : w ∈ s.wallets) : 0 ≤ w.balance := by
  unfold walletsNonneg at h
  rw [List.all_eq_true] at h
  simpa using h w hm

-- Updating one wallet row to a non-negative balance preserves the invariant.
theorem walletsNonneg_putWallet {s : EconState} {w : Wallet}
    (h : walletsNonneg s = true) (hw : 0 ≤ w.balance) :
    walletsNonneg (putWallet s w) = true := by
  unfold walletsNonneg putWallet at *
  rw [List.all_eq_true] at h ⊢
  intro x hx
  obtain ⟨y, hy, rfl⟩ := List.mem_map.mp hx
  by_cases hcase : (y.pk == w.pk) = true
  · simpa [hcase] using hw
  · simpa [hcase] using h y hy

-- Unpacking can_debit.
theorem can_debit_iff {w : Wallet} {amt : Int} :
    can_debit w amt = true ↔ 0 < amt ∧ amt ≤ w.balance := by
  unfold can_debit
  simp

-- A ledger insert never touches wallet rows.
theorem stateAfter_createTx_nonneg {s0 s : EconState} {wid : Nat} {ty : TxType}
    {amt : Int} {key : Option String} {rel : Option Nat}
    (hs0 : walletsNonneg s0 = true) (hs : walletsNonneg s = true) :
    walletsNonneg (stateAfter (createTx s wid ty amt key rel) s0) = true := by
  cases hct : createTx s wid ty amt key rel with
  | error e => simpa [stateAfter] using hs0
  | ok res =>
    obtain ⟨t, s'⟩ := res
    obtain ⟨hw', _, _, _⟩ := createTx_ok hct
    unfold walletsNonneg at *
    simpa [stateAfter, hw'] using hs

-- deposit preserves non-negative balances.
theorem deposit_nonneg (s : EconState) (pk : Nat) (amount : Int)
    (idem : Option String) (h : walletsNonneg s = true) :
    walletsNonneg (stateAfter (deposit s pk amount idem) s) = true := by
  unfold deposit
  split
  · simpa [stateAfter] using h
  · next amt hn =>
    obtain ⟨rfl, hpos⟩ := normalize_ok hn
    split
    · next k =>
      split
      · split
        · simpa [stateAfter] using h
        · simpa [stateAfter] using h
      · split
        · simpa [stateAfter] using h
        · next w hw =>
          obtain ⟨hmem, hpk⟩ := findWallet_mem hw
          have hb := balance_nonneg_of_mem h hmem
          exact stateAfter_createTx_nonneg h
            (walletsNonneg_putWallet h (show 0 ≤ w.balance + amt by omega))
    · split
      · simpa [stateAfter] using h
      · next w hw =>
        obtain ⟨hmem, hpk⟩ := findWallet_mem hw
        have hb := balance_nonneg_of_mem h hmem
        exact stateAfter_createTx_nonneg h
          (walletsNonneg_putWallet h (show 0 ≤ w.balance + amt by omega))

-- withdraw preserves non-negative balances.
theorem withdraw_nonneg (s : EconState) (pk : Nat) (amount : Int)
    (idem : Option String) (h : walletsNonneg s = true) :
    walletsNonneg (stateAfter (withdraw s pk amount idem) s) = true := by
  unfold withdraw
  split
  · simpa [stateAfter] using h
  · next amt hn =>
    obtain ⟨rfl, hpos⟩ := normalize_ok hn
    split
    · next k =>
      split
      · split
        · simpa [stateAfter] using h
        · simpa [stateAfter] using h
      · split
        · simpa [stateAfter] using h
        · next w hw =>
          split
          · simpa [stateAfter] using h
          · next hcd =>
            have hd : can_debit w amt = true := by
              revert hcd
              cases can_debit w amt <;> simp
            obtain ⟨-, hle⟩ := can_debit_iff.mp hd
            exact stateAfter_createTx_nonneg h
              (walletsNonneg_putWallet h (show 0 ≤ w.balance - amt by omega))
    · split
      · simpa [stateAfter] using h
      · next w hw =>
        split
        · simpa [stateAfter] using h
        · next hcd =>
          have hd : can_debit w amt = true := by
            revert hcd
            cases can_debit w amt <;> simp
          obtain ⟨-, hle⟩ := can_debit_iff.mp hd
          exact stateAfter_createTx_nonneg h
            (walletsNonneg_putWallet h (show 0 ≤ w.balance - amt by omega))

-- transfer preserves non-negative balances.
theorem transfer_nonneg (s : EconState) (fromPk toPk : Nat) (amount : Int)
    (io ii : Option String) (h : walletsNonneg s = true) :
    walletsNonneg (stateAfter (transfer s fromPk toPk amount io ii) s) = true := by
  unfold transfer
  split
  · next fw tw hfw htw =>
    split
    · simpa [stateAfter] using h
    · split
      · simpa [stateAfter] using h
      · split
        · simpa [stateAfter] using h
        · next amt hn =>
          obtain ⟨rfl, hpos⟩ := normalize_ok hn
          split
          · split
            · simpa [stateAfter] using h
            · simpa [stateAfter] using h
          · split
            · simpa [stateAfter] using h
            · next hcd =>
              have hd : can_debit fw amt = true := by
                revert hcd
                cases can_debit fw amt <;> simp
              obtain ⟨-, hle⟩ := can_debit_iff.mp hd
              obtain ⟨hmemf, -⟩ := findWallet_mem hfw
              obtain ⟨hmemt, -⟩ := findWallet_mem htw
              have hbt := balance_nonneg_of_mem h hmemt
              have hs1 : walletsNonneg (putWallet s { fw with balance := fw.balance - amt }) = true :=
                walletsNonneg_putWallet h (show 0 ≤ fw.balance - amt by omega)
              cases hct1 : createTx (putWallet s { fw with balance := fw.balance - amt })
                  fromPk TxType.transfer_out amt io none with
              | error e => simpa [stateAfter, hct1] using h
              | ok res1 =>
                obtain ⟨out_tx, s2⟩ := res1
                obtain ⟨hw2, -, -, -⟩ := createTx_ok hct1
                have hs2 : walletsNonneg s2 = true := by
                  unfold walletsNonneg at hs1 ⊢
                  rw [hw2]
                  exact hs1
                have hs3 : walletsNonneg (putWallet s2 { tw with balance := tw.balance + amt }) = true :=
                  walletsNonneg_putWallet hs2 (show 0 ≤ tw.balance + amt by omega)
                cases hct2 : createTx (putWallet s2 { tw with balance := tw.balance + amt })
                    toPk TxType.transfer_in amt ii (some out_tx.id) with
                | error e => simpa [stateAfter, hct1, hct2] using h
                | ok res2 =>
                  obtain ⟨in_tx, s4⟩ := res2
                  obtain ⟨hw4, -, -, -⟩ := createTx_ok hct2
                  have hs4 : walletsNonneg s4 = true := by
                    unfold walletsNonneg at hs3 ⊢
                    rw [hw4]
                    exact hs3
                  simp only [stateAfter, hct1, hct2]
                  unfold walletsNonneg at hs4 ⊢
                  simpa using hs4
  · simpa [stateAfter] using h

end Econ

/-- Claim C2: the wallet-balance CHECK constraint is respected by the
services themselves: starting from a state in which every wallet balance is
non-negative, a call to deposit, withdraw or transfer leaves every wallet
balance non-negative, whether it returns normally or raises (a raise rolls
the atomic block back). -/
theorem economy_preserves_nonneg (s : Econ.EconState) (pk : Nat)
    (amount : Int) (idem : Option String) (fromPk toPk : Nat) (amount2 : Int)
    (io ii : Option String) (h : Econ.walletsNonneg s = true) :
    Econ.walletsNonneg (Econ.stateAfter (Econ.deposit s pk amount idem) s) = true ∧
    Econ.walletsNonneg (Econ.stateAfter (Econ.withdraw s pk amount idem) s) = true ∧
    Econ.walletsNonneg (Econ.stateAfter (Econ.transfer s fromPk toPk amount2 io ii) s) = true :=
  ⟨Econ.deposit_nonneg s pk amount idem h,
   Econ.withdraw_nonneg s pk amount idem h,
   Econ.transfer_nonneg s fromPk toPk amount2 io ii h⟩

/-- Witness for the C2 theorem on the concrete base state. -/
theorem economy_preserves_nonneg_witness :
    Econ.walletsNonneg
        (Econ.stateAfter (Econ.deposit Econ.exBase 1 5 (some "w1")) Econ.exBase) = true ∧
    Econ.walletsNonneg
        (Econ.stateAfter (Econ.withdraw Econ.exBase 1 5 (some "w1")) Econ.exBase) = true ∧
    Econ.walletsNonneg
        (Econ.stateAfter (Econ.transfer Econ.exBase 1 2 5 none none) Econ.exBase) = true :=
  economy_preserves_nonneg Econ.exBase 1 5 (some "w1") 1 2 5 none none (by decide)

namespace Econ

-- createTx only ever raises IntegrityError.
theorem createTx_error {s : EconState} {wid : Nat} {ty : TxType} {amt : Int}
    {key : Option String} {rel : Option Nat} {e : EconError}
    (h : createTx s wid ty amt key rel = .error e) : e = .integrityError := by
  unfold createTx at h
  split at h
  · split at h
    · injection h with h1
      exact h1.symm
    · exact absurd h (by simp)
  · exact absurd h (by simp)

end Econ

/-- Claim C3 (amended): provided the call is not an idempotency-key replay
(no transaction with the given key exists), `withdraw(wallet, a)` with a
normalized (positive) amount raises `InsufficientFunds` exactly when the
wallet's balance is strictly below `a`; and when the balance is
insufficient the raise leaves the database untouched (rollback of the
atomic block), so the balance is unchanged and no ledger row is created. -/
theorem withdraw_insufficient_iff (s : Econ.EconState) (pk : Nat)
    (amount : Int) (idem : Option String) (w : Econ.Wallet)
    (hw : Econ.findWallet s pk = some w) (hpos : 0 < amount)
    (hno : ∀ k, idem = some k → Econ.findTxByKey s k = none) :
    (Econ.withdraw s pk amount idem = .error .insufficientFunds ↔
      w.balance < amount) ∧
    (w.balance < amount →
      Econ.stateAfter (Econ.withdraw s pk amount idem) s = s) := by
  have hn : Econ.normalize_amount amount = .ok amount := by
    unfold Econ.normalize_amount
    simp
    omega
  have hmain : Econ.withdraw s pk amount idem =
      (if !Econ.can_debit w amount then .error .insufficientFunds
       else Econ.createTx (Econ.putWallet s { w with balance := w.balance - amount })
         pk Econ.TxType.withdraw amount idem none) := by
    unfold Econ.withdraw
    rw [hn]
    dsimp only
    cases idem with
    | none =>
      dsimp only
      rw [hw]
    | some k =>
      dsimp only
      rw [hno k rfl]
      dsimp only
      rw [hw]
  constructor
  · rw [hmain]
    by_cases hcd : Econ.can_debit w amount = true
    · obtain ⟨-, hle⟩ := Econ.can_debit_iff.mp hcd
      rw [hcd]
      constructor
      · intro hctr
        cases hct : Econ.createTx (Econ.putWallet s { w with balance := w.balance - amount })
            pk Econ.TxType.withdraw amount idem none with
        | error e =>
          rw [hct] at hctr
          have := Econ.createTx_error hct
          subst this
          exact absurd hctr (by simp)
        | ok res =>
          rw [hct] at hctr
          exact absurd hctr (by simp)
      · intro hlt
        omega
    · have hlt : w.balance < amount := by
        have : ¬(0 < amount ∧ amount ≤ w.balance) := fun hc => hcd (Econ.can_debit_iff.mpr hc)
        omega
      simp only [Bool.not_eq_true] at hcd
      rw [hcd]
      simp [hlt]
  · intro hlt
    have hcd : Econ.can_debit w amount = false := by
      cases hc : Econ.can_debit w amount
      · rfl
      · obtain ⟨-, hle⟩ := Econ.can_debit_iff.mp hc
        omega
    rw [hmain, hcd]
    simp [Econ.stateAfter]

/-- Witness for the C3 theorem: on the base state, withdrawing 6 from
wallet 1 (balance 5) raises `InsufficientFunds` and leaves the state
untouched. -/
theorem withdraw_insufficient_iff_witness :
    Econ.withdraw Econ.exBase 1 6 none = .error .insufficientFunds ∧
    Econ.stateAfter (Econ.withdraw Econ.exBase 1 6 none) Econ.exBase = Econ.exBase :=
  ⟨(withdraw_insufficient_iff Econ.exBase 1 6 none
      { pk := 1, currency := Econ.Currency.AKI, balance := 5 } (by decide) (by decide)
      (fun k hk => by cases hk)).1.mpr (by decide),
   (withdraw_insufficient_iff Econ.exBase 1 6 none
      { pk := 1, currency := Econ.Currency.AKI, balance := 5 } (by decide) (by decide)
      (fun k hk => by cases hk)).2 (by decide)⟩

/-- Claim C4 (amended): deposit and withdraw replays behave exactly as
claimed: when a transaction with the given idempotency key exists, a
repeated call with matching wallet, operation type and amount returns the
recorded transaction with no state change, and any mismatch raises a
ValidationError with no state change.  Transfer replays validate only the
source wallet and the amount against the recorded TRANSFER_OUT row: a
matching call returns the recorded pair (regardless of the destination
wallet passed), and only a source-wallet or amount mismatch raises. -/
theorem idempotency_replay_behavior :
    (∀ (s : Econ.EconState) (pk : Nat) (amount : Int) (k : String)
        (ex : Econ.Transaction),
      Econ.findTxByKey s k = some ex → 0 < amount →
      (ex.walletId = pk ∧ ex.tx_type = Econ.TxType.deposit ∧ ex.amount = amount →
        Econ.deposit s pk amount (some k) = .ok (ex, s)) ∧
      (ex.walletId ≠ pk ∨ ex.tx_type ≠ Econ.TxType.deposit ∨ ex.amount ≠ amount →
        Econ.deposit s pk amount (some k) =
          .error (.validation "Idempotency key already used for another operation"))) ∧
    (∀ (s : Econ.EconState) (pk : Nat) (amount : Int) (k : String)
        (ex : Econ.Transaction),
      Econ.findTxByKey s k = some ex → 0 < amount →
      (ex.walletId = pk ∧ ex.tx_type = Econ.TxType.withdraw ∧ ex.amount = amount →
        Econ.withdraw s pk amount (some k) = .ok (ex, s)) ∧
      (ex.walletId ≠ pk ∨ ex.tx_type ≠ Econ.TxType.withdraw ∨ ex.amount ≠ amount →
        Econ.withdraw s pk amount (some k) =
          .error (.validation "Idempotency key already used for another operation"))) ∧
    (∀ (s : Econ.EconState) (fromPk toPk : Nat) (amount : Int) (k : String)
        (ii : Option String) (ex : Econ.Transaction) (fw tw : Econ.Wallet),
      Econ.findWallet s fromPk = some fw → Econ.findWallet s toPk = some tw →
      fw.currency = tw.currency → fromPk ≠ toPk → 0 < amount →
      Econ.findTransferOutByKey s k = some ex →
      (ex.walletId = fromPk ∧ ex.amount = amount →
        Econ.transfer s fromPk toPk amount (some k) ii =
          .ok ({ out_tx := some ex,
                 in_tx := ex.related_tx.bind (Econ.findTxById s),
                 amount := ex.amount }, s)) ∧
      (ex.walletId ≠ fromPk ∨ ex.amount ≠ amount →
        Econ.transfer s fromPk toPk amount (some k) ii =
          .error (.validation "Idempotency key already used for another operation"))) := by
  refine ⟨?_, ?_, ?_⟩
  · intro s pk amount k ex hfind hpos
    have hn : Econ.normalize_amount amount = .ok amount := by
      unfold Econ.normalize_amount
      simp
      omega
    have hred : Econ.deposit s pk amount (some k) =
        (if (ex.walletId != pk || ex.tx_type != Econ.TxType.deposit
              || ex.amount != amount) = true then
          .error (.validation "Idempotency key already used for another operation")
        else .ok (ex, s)) := by
      unfold Econ.deposit
      rw [hn]
      dsimp only
      rw [hfind]
    constructor
    · rintro ⟨h1, h2, h3⟩
      rw [hred]
      simp [h1, h2, h3]
    · intro hmis
      rw [hred]
      rcases hmis with hm | hm | hm <;> simp [hm]
  · intro s pk amount k ex hfind hpos
    have hn : Econ.normalize_amount amount = .ok amount := by
      unfold Econ.normalize_amount
      simp
      omega
    have hred : Econ.withdraw s pk amount (some k) =
        (if (ex.walletId != pk || ex.tx_type != Econ.TxType.withdraw
              || ex.amount != amount) = true then
          .error (.validation "Idempotency key already used for another operation")
        else .ok (ex, s)) := by
      unfold Econ.withdraw
      rw [hn]
      dsimp only
      rw [hfind]
    constructor
    · rintro ⟨h1, h2, h3⟩
      rw [hred]
      simp [h1, h2, h3]
    · intro hmis
      rw [hred]
      rcases hmis with hm | hm | hm <;> simp [hm]
  · intro s fromPk toPk amount k ii ex fw tw hfw htw hcur hne hpos hfind
    have hn : Econ.normalize_amount amount = .ok amount := by
      unfold Econ.normalize_amount
      simp
      omega
    have hred : Econ.transfer s fromPk toPk amount (some k) ii =
        (if (ex.walletId != fromPk || ex.amount != amount) = true then
          .error (.validation "Idempotency key already used for another operation")
        else
          .ok ({ out_tx := some ex,
                 in_tx := ex.related_tx.bind (Econ.findTxById s),
                 amount := ex.amount }, s)) := by
      unfold Econ.transfer
      rw [hfw, htw]
      dsimp only
      rw [hcur]
      simp only [bne_self_eq_false, Bool.false_eq_true, if_false]
      have hbne : (fromPk == toPk) = false := by
        simp [hne]
      rw [hbne]
      simp only [Bool.false_eq_true, if_false]
      rw [hn]
      dsimp only
      rw [hfind]
    constructor
    · rintro ⟨h1, h2⟩
      rw [hred]
      simp [h1, h2]
    · intro hmis
      rw [hred]
      rcases hmis with hm | hm <;> simp [hm]

/-- Witness for the C4 theorem: a matching deposit replay returns the
recorded transaction, a mismatched withdraw replay raises, and a transfer
replay matched on source and amount returns the recorded pair. -/
theorem idempotency_replay_behavior_witness :
    Econ.deposit Econ.exAfterD 2 7 (some "d") =
      .ok ({ id := 0, walletId := 2, tx_type := Econ.TxType.deposit, amount := 7,
             idempotency_key := some "d", related_tx := none }, Econ.exAfterD) ∧
    Econ.withdraw Econ.exAfterD 2 7 (some "d") =
      .error (.validation "Idempotency key already used for another operation") ∧
    Econ.transfer Econ.exAfterT 1 2 5 (some "t") (some "t2") =
      .ok ({ out_tx := some { id := 0, walletId := 1,
                              tx_type := Econ.TxType.transfer_out, amount := 5,
                              idempotency_key := some "t", related_tx := some 1 },
             in_tx := some { id := 1, walletId := 2,
                             tx_type := Econ.TxType.transfer_in, amount := 5,
                             idempotency_key := some "t2", related_tx := some 0 },
             amount := 5 }, Econ.exAfterT) := by
  refine ⟨?_, ?_, ?_⟩
  · exact (idempotency_replay_behavior.1 Econ.exAfterD 2 7 "d"
      { id := 0, walletId := 2, tx_type := Econ.TxType.deposit, amount := 7,
        idempotency_key := some "d", related_tx := none }
      (by decide) (by decide)).1 (by decide)
  · exact (idempotency_replay_behavior.2.1 Econ.exAfterD 2 7 "d"
      { id := 0, walletId := 2, tx_type := Econ.TxType.deposit, amount := 7,
        idempotency_key := some "d", related_tx := none }
      (by decide) (by decide)).2 (by decide)
  · exact (idempotency_replay_behavior.2.2 Econ.exAfterT 1 2 5 "t" (some "t2")
      { id := 0, walletId := 1, tx_type := Econ.TxType.transfer_out, amount := 5,
        idempotency_key := some "t", related_tx := some 1 }
      { pk := 1, currency := Econ.Currency.AKI, balance := 0 }
      { pk := 2, currency := Econ.Currency.AKI, balance := 5 }
      (by decide) (by decide) (by decide) (by decide) (by decide) (by decide)).1 (by decide)

namespace Econ

-- find? by pk looks through a putWallet-style row update.
theorem find?_update (l : List Wallet) (w1 : Wallet) (p : Nat) :
    (l.map (fun x => if x.pk == w1.pk then w1 else x)).find? (fun w => w.pk == p) =
      (l.find? (fun w => w.pk == p)).map (fun x => if x.pk == w1.pk then w1 else x) := by
  induction l with
  | nil => rfl
  | cons a t ih =>
    simp only [List.map_cons, List.find?_cons]
    by_cases hc : (a.pk == w1.pk) = true
    · have ha : a.pk = w1.pk := by simpa using hc
      simp only [hc, if_true, ha]
      cases hp : w1.pk == p
      · simpa [hp] using ih
      · simp [hp, hc, ha]
    · simp only [hc, Bool.false_eq_true, if_false]
      cases hp : a.pk == p
      · simpa [hp] using ih
      · have hcc : ¬ a.pk = w1.pk := by simpa using hc
        simp [hp, hcc]

-- findWallet after a wallet row UPDATE.
theorem findWallet_putWallet (s : EconState) (w1 : Wallet) (p : Nat) :
    findWallet (putWallet s w1) p =
      (findWallet s p).map (fun x => if x.pk == w1.pk then w1 else x) := by
  unfold findWallet putWallet
  exact find?_update s.wallets w1 p

end Econ

/-- Claim C1 (amended): every successful `transfer` between two distinct
wallets of the same currency that is not an idempotent replay (no
TRANSFER_OUT row with the `idem_out` key exists) debits the source by
exactly the normalized amount, credits the destination by exactly the same
amount (so the sum of the two balances is unchanged), and appends exactly
two new ledger rows — a TRANSFER_OUT on the source and a TRANSFER_IN on the
destination, both with that amount and each referencing the other through
`related_tx`; all other wallets are untouched. -/
theorem transfer_fresh_postconditions (s : Econ.EconState)
    (fromPk toPk : Nat) (amount : Int) (io ii : Option String)
    (res : Econ.TransferResult) (s2 : Econ.EconState) (fw tw : Econ.Wallet)
    (hfw : Econ.findWallet s fromPk = some fw)
    (htw : Econ.findWallet s toPk = some tw)
    (hids : ∀ t ∈ s.txs, t.id < s.nextTxId)
    (hreplay : ∀ k, io = some k → Econ.findTransferOutByKey s k = none)
    (h : Econ.transfer s fromPk toPk amount io ii = .ok (res, s2)) :
    s2.txs = s.txs ++
      [{ id := s.nextTxId, walletId := fromPk,
         tx_type := Econ.TxType.transfer_out, amount := amount,
         idempotency_key := io, related_tx := some (s.nextTxId + 1) },
       { id := s.nextTxId + 1, walletId := toPk,
         tx_type := Econ.TxType.transfer_in, amount := amount,
         idempotency_key := ii, related_tx := some s.nextTxId }] ∧
    res = { out_tx := some
              { id := s.nextTxId, walletId := fromPk,
                tx_type := Econ.TxType.transfer_out, amount := amount,
                idempotency_key := io, related_tx := some (s.nextTxId + 1) },
            in_tx := some
              { id := s.nextTxId + 1, walletId := toPk,
                tx_type := Econ.TxType.transfer_in, amount := amount,
                idempotency_key := ii, related_tx := some s.nextTxId },
            amount := amount } ∧
    Econ.findWallet s2 fromPk = some { fw with balance := fw.balance - amount } ∧
    Econ.findWallet s2 toPk = some { tw with balance := tw.balance + amount } ∧
    (∀ w ∈ s.wallets, w.pk ≠ fromPk → w.pk ≠ toPk → w ∈ s2.wallets) := by
  obtain ⟨hmemf, hpkf⟩ := Econ.findWallet_mem hfw
  obtain ⟨hmemt, hpkt⟩ := Econ.findWallet_mem htw
  have hne : fromPk ≠ toPk := by
    intro hctr
    subst hctr
    rw [hfw] at htw
    injection htw with htw2
    subst htw2
    unfold Econ.transfer at h
    rw [hfw] at h
    simp at h
  unfold Econ.transfer at h
  rw [hfw, htw] at h
  dsimp only at h
  split at h
  · exact absurd h (by simp)
  · split at h
    · exact absurd h (by simp)
    · split at h
      · exact absurd h (by simp)
      · next amt hn =>
        obtain ⟨rfl, hpos⟩ := Econ.normalize_ok hn
        split at h
        · next existing hex =>
          exfalso
          cases io with
          | none => simp at hex
          | some k =>
            dsimp only at hex
            rw [hreplay k rfl] at hex
            exact absurd hex (by simp)
        · split at h
          · exact absurd h (by simp)
          · next hcd =>
            generalize hs1 : Econ.putWallet s { fw with balance := fw.balance - amt } = s1 at h
            split at h
            · exact absurd h (by simp)
            · next out_tx s2c heq1 =>
              generalize hs3 : Econ.putWallet s2c { tw with balance := tw.balance + amt } = s3 at h
              split at h
              · exact absurd h (by simp)
              · next in_tx s4 heq2 =>
                obtain ⟨hw2, ht2, hn2, hout⟩ := Econ.createTx_ok heq1
                obtain ⟨hw4, ht4, hn4, hin⟩ := Econ.createTx_ok heq2
                injection h with h1
                injection h1 with hres hs2
                have hs1n : s1.nextTxId = s.nextTxId := by rw [← hs1]; rfl
                have hs1t : s1.txs = s.txs := by rw [← hs1]; rfl
                have hs1w : s1.wallets =
                    s.wallets.map (fun x =>
                      if x.pk == fw.pk then { fw with balance := fw.balance - amt } else x) := by
                  rw [← hs1]
                  rfl
                have hs3n : s3.nextTxId = s2c.nextTxId := by rw [← hs3]; rfl
                have hs3t : s3.txs = s2c.txs := by rw [← hs3]; rfl
                have hs3w : s3.wallets =
                    s2c.wallets.map (fun x =>
                      if x.pk == tw.pk then { tw with balance := tw.balance + amt } else x) := by
                  rw [← hs3]
                  rfl
                have hout_id : out_tx.id = s.nextTxId := by
                  rw [hout, ← hs1n]
                have hin_id : in_tx.id = s.nextTxId + 1 := by
                  rw [hin, hs3n, hn2, hs1n]
                have hbne_in : (in_tx.id == out_tx.id) = false := by
                  rw [hin_id, hout_id]
                  simp
                have hbeq_out : (out_tx.id == out_tx.id) = true := by simp
                have hmap_old : s.txs.map (fun t =>
                    if t.id == out_tx.id then
                      { out_tx with related_tx := some in_tx.id } else t) = s.txs := by
                  have hpt : ∀ t ∈ s.txs, (if t.id == out_tx.id then
                      { out_tx with related_tx := some in_tx.id } else t) = id t := by
                    intro t ht
                    have : (t.id == out_tx.id) = false := by
                      rw [hout_id]
                      have := hids t ht
                      simp
                      omega
                    simp [this]
                  rw [List.map_congr_left hpt, List.map_id]
                have hfw3 : Econ.findWallet s2c fromPk =
                    (Econ.findWallet s fromPk).map (fun x =>
                      if x.pk == ({ fw with balance := fw.balance - amt } : Econ.Wallet).pk then
                        { fw with balance := fw.balance - amt } else x) := by
                  have hto : Econ.findWallet s2c fromPk = Econ.findWallet s1 fromPk := by
                    unfold Econ.findWallet
                    rw [hw2]
                  rw [hto, ← hs1]
                  exact Econ.findWallet_putWallet s _ fromPk
                have htw3 : Econ.findWallet s2c toPk =
                    (Econ.findWallet s toPk).map (fun x =>
                      if x.pk == ({ fw with balance := fw.balance - amt } : Econ.Wallet).pk then
                        { fw with balance := fw.balance - amt } else x) := by
                  have hto : Econ.findWallet s2c toPk = Econ.findWallet s1 toPk := by
                    unfold Econ.findWallet
                    rw [hw2]
                  rw [hto, ← hs1]
                  exact Econ.findWallet_putWallet s _ toPk
                refine ⟨?_, ?_, ?_, ?_, ?_⟩
                · rw [← hs2]
                  dsimp only
                  rw [ht4, hs3t, ht2, hs1t]
                  simp only [List.map_append, List.map_cons, List.map_nil, hmap_old,
                    hbeq_out, hbne_in, if_true, if_false, Bool.false_eq_true]
                  rw [hout, hin, hs3n, hn2, hs1n]
                  simp [hout, hin_id, hs1n, List.append_assoc]
                · rw [← hres]
                  rw [hout, hin, hs3n, hn2, hs1n]
                  simp [hin_id, hout, hs1n]
                · have e1 : Econ.findWallet s2 fromPk = Econ.findWallet s3 fromPk := by
                    rw [← hs2]
                    unfold Econ.findWallet
                    dsimp only
                    rw [hw4]
                  rw [e1, ← hs3, Econ.findWallet_putWallet, hfw3, hfw]
                  have hx : fw.pk ≠ tw.pk := by
                    rw [hpkf, hpkt]
                    exact hne
                  simp [hx]
                · have e1 : Econ.findWallet s2 toPk = Econ.findWallet s3 toPk := by
                    rw [← hs2]
                    unfold Econ.findWallet
                    dsimp only
                    rw [hw4]
                  rw [e1, ← hs3, Econ.findWallet_putWallet, htw3, htw]
                  have hx : tw.pk ≠ fw.pk := by
                    rw [hpkf, hpkt]
                    exact fun hc => hne hc.symm
                  simp [hx]
                · intro w hw hwf hwt
                  have e1 : s2.wallets = s3.wallets := by
                    rw [← hs2]
                    dsimp only
                    rw [hw4]
                  rw [e1, ← hs3]
                  unfold Econ.putWallet
                  dsimp only
                  rw [hw2, ← hs1]
                  unfold Econ.putWallet
                  dsimp only
                  have hf0 : (if w.pk == ({ fw with balance := fw.balance - amt } : Econ.Wallet).pk then
                      ({ fw with balance := fw.balance - amt } : Econ.Wallet) else w) = w := by
                    have hcc : (w.pk == ({ fw with balance := fw.balance - amt } : Econ.Wallet).pk) = false := by
                      have hx : w.pk ≠ fw.pk := by
                        rw [hpkf]
                        exact hwf
                      simpa using hx
                    simp [hcc]
                  have hg0 : (if w.pk == ({ tw with balance := tw.balance + amt } : Econ.Wallet).pk then
                      ({ tw with balance := tw.balance + amt } : Econ.Wallet) else w) = w := by
                    have hcc : (w.pk == ({ tw with balance := tw.balance + amt } : Econ.Wallet).pk) = false := by
                      have hx : w.pk ≠ tw.pk := by
                        rw [hpkt]
                        exact hwt
                      simpa using hx
                    simp [hcc]
                  have hw1 : w ∈ s.wallets.map (fun x =>
                      if x.pk == ({ fw with balance := fw.balance - amt } : Econ.Wallet).pk then
                        ({ fw with balance := fw.balance - amt } : Econ.Wallet) else x) :=
                    List.mem_map.mpr ⟨w, hw, hf0⟩
                  exact List.mem_map.mpr ⟨w, hw1, hg0⟩

/-- Witness for the C1 theorem: the first transfer of 5 from wallet 1 to
wallet 2 on the base state appends exactly the linked OUT/IN pair and moves
the balances to 0 and 5. -/
theorem transfer_fresh_postconditions_witness :
    Econ.exAfterT.txs = Econ.exBase.txs ++
      [{ id := 0, walletId := 1, tx_type := Econ.TxType.transfer_out, amount := 5,
         idempotency_key := some "t", related_tx := some 1 },
       { id := 1, walletId := 2, tx_type := Econ.TxType.transfer_in, amount := 5,
         idempotency_key := some "t2", related_tx := some 0 }] ∧
    Econ.findWallet Econ.exAfterT 1 =
      some { pk := 1, currency := Econ.Currency.AKI, balance := 0 } ∧
    Econ.findWallet Econ.exAfterT 2 =
      some { pk := 2, currency := Econ.Currency.AKI, balance := 5 } := by
  have h := transfer_fresh_postconditions Econ.exBase 1 2 5 (some "t") (some "t2")
    { out_tx := some { id := 0, walletId := 1, tx_type := Econ.TxType.transfer_out,
                       amount := 5, idempotency_key := some "t", related_tx := some 1 },
      in_tx := some { id := 1, walletId := 2, tx_type := Econ.TxType.transfer_in,
                      amount := 5, idempotency_key := some "t2", related_tx := some 0 },
      amount := 5 }
    Econ.exAfterT
    { pk := 1, currency := Econ.Currency.AKI, balance := 5 }
    { pk := 2, currency := Econ.Currency.AKI, balance := 0 }
    rfl rfl (by simp [Econ.exBase]) (fun k hk => by cases hk; rfl) rfl
  exact ⟨h.1, h.2.2.1, h.2.2.2.1⟩

namespace Promo

-- The foldl underlying latestByRedeemedAt only ever returns the
-- accumulator or a list element.
theorem latest_go_mem : ∀ (l : List Redemption) (acc : Option Redemption)
    (x : Redemption),
    l.foldl (fun acc r =>
      match acc with
      | none => some r
      | some a => if r.redeemed_at > a.redeemed_at then some r else some a) acc =
      some x →
    acc = some x ∨ x ∈ l := by
  intro l
  induction l with
  | nil =>
    intro acc x h
    exact Or.inl h
  | cons a t ih =>
    intro acc x h
    simp only [List.foldl_cons] at h
    rcases ih _ x h with hacc | hmem
    · cases acc with
      | none =>
        have : a = x := by
          simpa using hacc
        exact Or.inr (by simp [this])
      | some b =>
        dsimp only at hacc
        by_cases hgt : a.redeemed_at > b.redeemed_at
        · rw [if_pos hgt] at hacc
          injection hacc with h2
          exact Or.inr (by simp [h2])
        · rw [if_neg hgt] at hacc
          exact Or.inl hacc
    · exact Or.inr (List.mem_cons_of_mem a hmem)

-- A latestByRedeemedAt result is an element of the list.
theorem latestByRedeemedAt_mem {l : List Redemption} {x : Redemption}
    (h : latestByRedeemedAt l = some x) : x ∈ l := by
  unfold latestByRedeemedAt at h
  rcases latest_go_mem l none x h with hacc | hm
  · exact absurd hacc (by simp)
  · exact hm

-- redStep is reflexive on a list with distinct ids.
theorem redStep_refl (ok : Redemption → Redemption → Bool)
    (hok : ∀ r, ok r r = true) (l : List Redemption)
    (hid : (l.map (fun r => r.id)).Nodup) : redStep ok l l = true := by
  unfold redStep
  rw [List.all_eq_true]
  intro r hr
  rw [List.all_eq_true]
  intro r2 hr2
  by_cases hi : r2.id = r.id
  · have hrr : r2 = r := List.inj_on_of_nodup_map hid hr2 hr hi
    simp [hrr, hok r]
  · simp [hi]

-- redStep holds for an in-place row update that respects ok and ids.
theorem redStep_map (ok : Redemption → Redemption → Bool) (l : List Redemption)
    (f : Redemption → Redemption)
    (hid : (l.map (fun r => r.id)).Nodup)
    (hidf : ∀ r ∈ l, (f r).id = r.id)
    (hstep : ∀ r ∈ l, ok r (f r) = true) :
    redStep ok l (l.map f) = true := by
  unfold redStep
  rw [List.all_eq_true]
  intro r hr
  rw [List.all_eq_true]
  intro r2 hr2
  obtain ⟨r3, hr3, rfl⟩ := List.mem_map.mp hr2
  by_cases hi : (f r3).id = r.id
  · have h3 : r3.id = r.id := by
      rw [← hidf r3 hr3]
      exact hi
    have hrr : r3 = r := List.inj_on_of_nodup_map hid hr3 hr h3
    subst hrr
    simp [hstep r3 hr3]
  · simp [hi]

-- Appending rows with fresh ids preserves redStep.
theorem redStep_append_new (ok : Redemption → Redemption → Bool)
    (l l2 new : List Redemption) (h : redStep ok l l2 = true)
    (hfresh : ∀ r ∈ l, ∀ n ∈ new, n.id ≠ r.id) :
    redStep ok l (l2 ++ new) = true := by
  unfold redStep at h ⊢
  rw [List.all_eq_true] at h ⊢
  intro r hr
  rw [List.all_eq_true]
  intro r2 hr2
  rcases List.mem_append.mp hr2 with h2 | h2
  · have := h r hr
    rw [List.all_eq_true] at this
    exact this r2 h2
  · simp [hfresh r hr r2 h2]

-- A successful apply_effect only ever touches the inventory.
theorem apply_effect_ok_state {s : PState} {p : PromoCode} {uid : Nat}
    {t : Option Int} {s1 : PState} (h : apply_effect s p uid t = .ok s1) :
    s1.redemptions = s.redemptions ∧ s1.promos = s.promos ∧
      s1.nextRedId = s.nextRedId := by
  unfold apply_effect at h
  split at h
  · split at h
    · exact absurd h (by simp)
    · split at h
      · exact absurd h (by simp)
      · injection h with h1
        subst h1
        exact ⟨rfl, rfl, rfl⟩
  · split at h
    · exact absurd h (by simp)
    · injection h with h1
      subst h1
      exact ⟨rfl, rfl, rfl⟩
  · exact absurd h (by simp)
  · exact absurd h (by simp)

-- cancel_promo_reservation can only rewrite a non-APPLIED row to CANCELLED.
theorem cancel_status_step (s : PState) (pid : String)
    (hid : (s.redemptions.map (fun r => r.id)).Nodup) :
    redStep stepCancelOk s.redemptions
      (cancel_promo_reservation s pid).2.redemptions = true := by
  have hrefl : ∀ r : Redemption, stepCancelOk r r = true := by
    intro r
    simp [stepCancelOk]
  unfold cancel_promo_reservation
  dsimp only
  split
  · exact redStep_refl _ hrefl _ hid
  · split
    · exact redStep_refl _ hrefl _ hid
    · next red0 hred0 =>
      split
      · exact redStep_refl _ hrefl _ hid
      · next hna =>
        dsimp only
        have hmem0 : red0 ∈ s.redemptions :=
          List.mem_of_mem_filter (latestByRedeemedAt_mem hred0)
        refine redStep_map _ _ _ hid ?_ ?_
        · intro r hr
          by_cases hc : (r.id == red0.id) = true
          · have : r.id = red0.id := by simpa using hc
            simp [hc, this]
          · simp [hc]
        · intro r hr
          by_cases hc : (r.id == red0.id) = true
          · have hide : r.id = red0.id := by simpa using hc
            have hrr : r = red0 := List.inj_on_of_nodup_map hid hr hmem0 hide
            subst hrr
            simp only [hc, if_true]
            simp [stepCancelOk]
            exact Or.inr (by simpa using hna)
          · simp [hc, hrefl]

-- apply_promo_after_payment_success only moves a PENDING row to APPLIED.
theorem apply_status_step (s : PState) (now : Nat) (pid : String)
    (hid : (s.redemptions.map (fun r => r.id)).Nodup) :
    redStep stepStrictOk s.redemptions
      (pStateAfter (apply_promo_after_payment_success s now pid) s).redemptions =
      true := by
  have hrefl : ∀ r : Redemption, stepStrictOk r r = true := by
    intro r
    simp [stepStrictOk]
  unfold apply_promo_after_payment_success
  dsimp only
  split
  · exact redStep_refl _ hrefl _ hid
  · split
    · exact redStep_refl _ hrefl _ hid
    · next red0 hred0 =>
      have hmem0 : red0 ∈ s.redemptions :=
        List.mem_of_mem_filter (latestByRedeemedAt_mem hred0)
      split
      · exact redStep_refl _ hrefl _ hid
      · next hna =>
        split
        · exact redStep_refl _ hrefl _ hid
        · next hnce =>
          split
          · exact redStep_refl _ hrefl _ hid
          · split
            · exact redStep_refl _ hrefl _ hid
            · next promo hpromo =>
              split
              · exact redStep_refl _ hrefl _ hid
              · split
                · exact redStep_refl _ hrefl _ hid
                · next s1 heff =>
                  have hpend : red0.status = RStatus.pending := by
                    cases hst : red0.status
                    · rfl
                    · rw [hst] at hna
                      simp at hna
                    · rw [hst] at hnce
                      simp at hnce
                    · rw [hst] at hnce
                      simp at hnce
                  have hs1r : s1.redemptions = s.redemptions := by
                    split at heff
                    · exact (apply_effect_ok_state heff).1
                    · exact (apply_effect_ok_state heff).1
                    · injection heff with h1
                      rw [← h1]
                  dsimp only [pStateAfter]
                  rw [hs1r]
                  refine redStep_map _ _ _ hid ?_ ?_
                  · intro r hr
                    by_cases hc : (r.id == red0.id) = true
                    · have : r.id = red0.id := by simpa using hc
                      simp [hc, this]
                    · simp [hc]
                  · intro r hr
                    by_cases hc : (r.id == red0.id) = true
                    · have hide : r.id = red0.id := by simpa using hc
                      have hrr : r = red0 := List.inj_on_of_nodup_map hid hr hmem0 hide
                      subst hrr
                      simp only [hc, if_true]
                      simp [stepStrictOk, hpend]
                    · simp [hc, hrefl]

end Promo

namespace Promo

-- The lazy expiry sweep of reserve_promo_for_topup is a valid status step.
theorem sweep_step (s : PState) (pid0 : Nat) (now : Nat)
    (hid : (s.redemptions.map (fun r => r.id)).Nodup) :
    redStep stepStrictOk s.redemptions
      (s.redemptions.map (fun r =>
        if r.promoId == pid0 && r.status == RStatus.pending
            && reservedBefore r now then
          { r with status := RStatus.expired }
        else r)) = true := by
  refine redStep_map _ _ _ hid ?_ ?_
  · intro r hr
    by_cases hc : (r.promoId == pid0 && r.status == RStatus.pending
        && reservedBefore r now) = true
    · simp [hc]
    · simp [hc]
  · intro r hr
    by_cases hc : (r.promoId == pid0 && r.status == RStatus.pending
        && reservedBefore r now) = true
    · have hc2 := hc
      simp at hc2
      obtain ⟨⟨hp1, hp2⟩, hp3⟩ := hc2
      simp [stepStrictOk, hp1, hp2, hp3]
    · simp [hc, stepStrictOk]

-- reserve_promo_for_topup only expires stale PENDING rows and appends a
-- fresh PENDING row.
theorem reserve_status_step (s : PState) (now : Nat) (code : String)
    (userId : Nat) (topup : Int) (pay tid idem : String)
    (hid : (s.redemptions.map (fun r => r.id)).Nodup)
    (hfresh : ∀ r ∈ s.redemptions, r.id < s.nextRedId) :
    redStep stepStrictOk s.redemptions
      (pStateAfter (reserve_promo_for_topup s now code userId topup pay tid idem) s).redemptions =
      true := by
  have hrefl : ∀ r : Redemption, stepStrictOk r r = true := by
    intro r
    simp [stepStrictOk]
  unfold reserve_promo_for_topup
  dsimp only
  split
  · exact redStep_refl _ hrefl _ hid
  · split
    · exact redStep_refl _ hrefl _ hid
    · split
      · exact redStep_refl _ hrefl _ hid
      · split
        · exact redStep_refl _ hrefl _ hid
        · next promo hpromo =>
          split
          · exact redStep_refl _ hrefl _ hid
          · split
            · exact redStep_refl _ hrefl _ hid
            · split
              · exact sweep_step s promo.id now hid
              · split
                · split
                  · exact redStep_refl _ hrefl _ hid
                  · exact redStep_append_new _ _ _ _
                      (sweep_step s promo.id now hid)
                      (fun r hr n hn => by
                        have hn2 : n.id = s.nextRedId := by
                          rcases List.mem_singleton.mp hn with rfl
                          rfl
                        have := hfresh r hr
                        omega)
                · exact redStep_append_new _ _ _ _
                    (sweep_step s promo.id now hid)
                    (fun r hr n hn => by
                      have hn2 : n.id = s.nextRedId := by
                        rcases List.mem_singleton.mp hn with rfl
                        rfl
                      have := hfresh r hr
                      omega)

end Promo

/-- Claim C5 (amended): `reserve_promo_for_topup` and
`apply_promo_after_payment_success` only ever move a redemption's status
from PENDING to APPLIED, CANCELLED or EXPIRED and never change a
non-PENDING redemption; `cancel_promo_reservation` leaves APPLIED
redemptions unchanged but rewrites any non-APPLIED matched redemption —
including one already EXPIRED or CANCELLED — to CANCELLED. -/
theorem promo_status_lifecycle (s : Promo.PState) (now : Nat) (code : String)
    (userId : Nat) (topup : Int) (pay tid idem pid2 pid3 : String)
    (hid : (s.redemptions.map (fun r => r.id)).Nodup)
    (hfresh : ∀ r ∈ s.redemptions, r.id < s.nextRedId) :
    Promo.redStep Promo.stepStrictOk s.redemptions
      (Promo.pStateAfter
        (Promo.reserve_promo_for_topup s now code userId topup pay tid idem)
        s).redemptions = true ∧
    Promo.redStep Promo.stepStrictOk s.redemptions
      (Promo.pStateAfter
        (Promo.apply_promo_after_payment_success s now pid2) s).redemptions = true ∧
    Promo.redStep Promo.stepCancelOk s.redemptions
      (Promo.cancel_promo_reservation s pid3).2.redemptions = true :=
  ⟨Promo.reserve_status_step s now code userId topup pay tid idem hid hfresh,
   Promo.apply_status_step s now pid2 hid,
   Promo.cancel_status_step s pid3 hid⟩

/-- Witness for the C5 theorem on the state holding one EXPIRED
redemption. -/
theorem promo_status_lifecycle_witness :
    Promo.redStep Promo.stepStrictOk Promo.exExpState.redemptions
      (Promo.pStateAfter
        (Promo.reserve_promo_for_topup Promo.exExpState 10 "SALE" 7 500 "pay9" "" "")
        Promo.exExpState).redemptions = true ∧
    Promo.redStep Promo.stepStrictOk Promo.exExpState.redemptions
      (Promo.pStateAfter
        (Promo.apply_promo_after_payment_success Promo.exExpState 10 "pay1")
        Promo.exExpState).redemptions = true ∧
    Promo.redStep Promo.stepCancelOk Promo.exExpState.redemptions
      (Promo.cancel_promo_reservation Promo.exExpState "pay1").2.redemptions = true :=
  promo_status_lifecycle Promo.exExpState 10 "SALE" 7 500 "pay9" "" "" "pay1" "pay1"
    (by decide) (by decide)

namespace Promo

-- reserve_promo_for_topup never touches the promo rows.
theorem reserve_promos_frame (s : PState) (now : Nat) (code : String)
    (userId : Nat) (topup : Int) (pay tid idem : String) :
    (pStateAfter (reserve_promo_for_topup s now code userId topup pay tid idem)
      s).promos = s.promos := by
  unfold reserve_promo_for_topup
  dsimp only
  repeat' split
  all_goals rfl

-- cancel_promo_reservation never touches the promo rows.
theorem cancel_promos_frame (s : PState) (pid : String) :
    (cancel_promo_reservation s pid).2.promos = s.promos := by
  unfold cancel_promo_reservation
  dsimp only
  repeat' split
  all_goals rfl

-- apply_promo_after_payment_success increments uses_count by exactly one on
-- a PENDING-to-APPLIED transition and by zero otherwise.
theorem apply_uses_count (s : PState) (now : Nat) (pid : String) :
    applyUsesOk s now pid = true := by
  unfold applyUsesOk
  cases happly : apply_promo_after_payment_success s now pid with
  | error e => rfl
  | ok res =>
    obtain ⟨red, s2⟩ := res
    unfold apply_promo_after_payment_success at happly
    dsimp only at happly
    split at happly
    · exact absurd happly (by simp)
    · split at happly
      · exact absurd happly (by simp)
      · next red0 hred0 =>
        dsimp only
        split at happly
        · next ha =>
          injection happly with h1
          injection h1 with hr hs
          subst hr
          subst hs
          simp [ha]
        · next hna =>
          split at happly
          · exact absurd happly (by simp)
          · next hnce =>
            split at happly
            · exact absurd happly (by simp)
            · split at happly
              · exact absurd happly (by simp)
              · next promo hpromo =>
                split at happly
                · exact absurd happly (by simp)
                · split at happly
                  · exact absurd happly (by simp)
                  · next s1 heff =>
                    have hpend : red0.status = RStatus.pending := by
                      cases hst : red0.status
                      · rfl
                      · rw [hst] at hna
                        simp at hna
                      · rw [hst] at hnce
                        simp at hnce
                      · rw [hst] at hnce
                        simp at hnce
                    have hs1p : s1.promos = s.promos := by
                      split at heff
                      · exact (apply_effect_ok_state heff).2.1
                      · exact (apply_effect_ok_state heff).2.1
                      · injection heff with h1
                        rw [← h1]
                    have hpid : promo.id = red0.promoId := by
                      have := List.find?_some hpromo
                      simpa using this
                    injection happly with h1
                    injection h1 with hr hs
                    have hnapplied : (red0.status == RStatus.applied) = false := by
                      rw [hpend]
                      rfl
                    rw [hnapplied]
                    simp only [Bool.false_eq_true, if_false]
                    rw [← hr, ← hs]
                    dsimp only
                    rw [hs1p, hpid, hpend]
                    simp

end Promo

/-- Claim C6: the promo usage counter counts only confirmed applications:
`reserve_promo_for_topup` and `cancel_promo_reservation` never change any
promo's `uses_count` (they never touch the promo rows at all), while
`apply_promo_after_payment_success` increments the redemption's promo
`uses_count` by exactly 1 when it moves the redemption from PENDING to
APPLIED, and changes nothing when it returns an already-APPLIED redemption
or raises (rollback). -/
theorem promo_uses_count_frame (s : Promo.PState) (now : Nat) (code : String)
    (userId : Nat) (topup : Int) (pay tid idem pid2 pid3 : String) :
    (Promo.pStateAfter
      (Promo.reserve_promo_for_topup s now code userId topup pay tid idem)
      s).promos = s.promos ∧
    (Promo.cancel_promo_reservation s pid3).2.promos = s.promos ∧
    Promo.applyUsesOk s now pid2 = true :=
  ⟨Promo.reserve_promos_frame s now code userId topup pay tid idem,
   Promo.cancel_promos_frame s pid3,
   Promo.apply_uses_count s now pid2⟩

namespace Promo

-- A stale reservation (TTL in the past) is never counted as active.
theorem reservedBefore_not_after {r : Redemption} {now : Nat}
    (h : reservedBefore r now = true) : reservedAfter r now = false := by
  unfold reservedBefore at h
  unfold reservedAfter
  cases hru : r.reserved_until with
  | none => rfl
  | some t =>
    rw [hru] at h
    simp at h ⊢
    omega

-- The lazy expiry sweep does not change the active PENDING count.
theorem sweep_active_count (s : PState) (pid0 now : Nat) :
    ((s.redemptions.map (fun r =>
        if r.promoId == pid0 && r.status == RStatus.pending
            && reservedBefore r now then
          { r with status := RStatus.expired }
        else r)).countP
      (fun r => r.promoId == pid0 && r.status == RStatus.pending
        && reservedAfter r now)) = activePendingCount s pid0 now := by
  unfold activePendingCount
  rw [List.countP_map]
  apply List.countP_congr
  intro r hr
  by_cases hc : (r.promoId == pid0 && r.status == RStatus.pending
      && reservedBefore r now) = true
  · have hc2 := hc
    simp at hc2
    obtain ⟨⟨hp1, hp2⟩, hp3⟩ := hc2
    have hna : reservedAfter r now = false := reservedBefore_not_after (by simpa using hp3)
    simp [Function.comp, hp1, hp2, hp3, hna]
  · simp [Function.comp, hc]

end Promo

namespace Promo

-- The expiry sweep preserves row ids.
theorem sweep_id (pid0 now : Nat) (r : Redemption) :
    (if r.promoId == pid0 && r.status == RStatus.pending
        && reservedBefore r now then
      { r with status := RStatus.expired }
    else r).id = r.id := by
  by_cases hc : (r.promoId == pid0 && r.status == RStatus.pending
      && reservedBefore r now) = true
  · simp [hc]
  · simp [hc]

-- Part 1 of the oversubscription claim: a reserve call that creates a new
-- PENDING reservation leaves uses_count + active PENDING within the limit.
theorem reserve_bound (s : PState) (now : Nat) (code : String) (userId : Nat)
    (topup : Int) (pay tid idem : String) (red : Redemption) (s2 : PState)
    (hfresh : ∀ r ∈ s.redemptions, r.id < s.nextRedId)
    (hpid : (s.promos.map (fun p => p.id)).Nodup)
    (h : reserve_promo_for_topup s now code userId topup pay tid idem =
      .ok (red, s2))
    (hnew : red.id = s.nextRedId) :
    overSubBound s2 red.promoId now = true := by
  unfold reserve_promo_for_topup at h
  dsimp only at h
  split at h
  · exact absurd h (by simp)
  · split at h
    · exact absurd h (by simp)
    · split at h
      · next existing hex =>
        injection h with h1
        injection h1 with hr hs
        exfalso
        by_cases hi : (idem == "") = true
        · rw [if_pos hi] at hex
          exact absurd hex (by simp)
        · rw [if_neg hi] at hex
          have hmem := List.mem_of_mem_filter (latestByRedeemedAt_mem hex)
          have hlt := hfresh _ hmem
          rw [hr] at hlt
          omega
      · split at h
        · exact absurd h (by simp)
        · next promo hpromo =>
          split at h
          · exact absurd h (by simp)
          · split at h
            · exact absurd h (by simp)
            · next hguard =>
              split at h
              · next exist2 hex2 =>
                injection h with h1
                injection h1 with hr hs
                exfalso
                have hmem2 := List.mem_of_mem_filter (latestByRedeemedAt_mem hex2)
                obtain ⟨r3, hr3, hfr3⟩ := List.mem_map.mp hmem2
                have hid3 : exist2.id = r3.id := by
                  rw [← hfr3]
                  exact sweep_id promo.id now r3
                have hlt := hfresh r3 hr3
                rw [hr] at hid3
                omega
              · have hmain : ∀ s2x : PState,
                    s2x = { promos := s.promos,
                            redemptions := (s.redemptions.map (fun r =>
                              if r.promoId == promo.id && r.status == RStatus.pending
                                  && reservedBefore r now then
                                { r with status := RStatus.expired }
                              else r)) ++
                              [{ id := s.nextRedId, promoId := promo.id,
                                 userId := userId, status := RStatus.pending,
                                 context := "topup",
                                 topup_amount_minor := some topup,
                                 payment_id := pay, topup_id := tid,
                                 idempotency_key := idem,
                                 reserved_until := some (now + RESERVE_TTL_MINUTES),
                                 redeemed_at := now, applied_at := none }],
                            inventory := s.inventory,
                            nextRedId := s.nextRedId + 1 } →
                    overSubBound s2x promo.id now = true := by
                  intro s2x hs2x
                  subst hs2x
                  unfold overSubBound
                  rw [List.all_eq_true]
                  intro p hp
                  dsimp only at hp
                  by_cases hpc : (p.id == promo.id) = true
                  · have hpe : p = promo :=
                      List.inj_on_of_nodup_map hpid hp
                        (List.mem_of_find?_eq_some hpromo) (by simpa using hpc)
                    subst hpe
                    simp only [Bool.or_eq_true, decide_eq_true_eq]
                    right
                    unfold activePendingCount
                    dsimp only
                    rw [List.countP_append, sweep_active_count]
                    have hone : List.countP
                        (fun r => r.promoId == p.id && r.status == RStatus.pending
                          && reservedAfter r now)
                        [{ id := s.nextRedId, promoId := p.id, userId := userId,
                           status := RStatus.pending, context := "topup",
                           topup_amount_minor := some topup, payment_id := pay,
                           topup_id := tid, idempotency_key := idem,
                           reserved_until := some (now + RESERVE_TTL_MINUTES),
                           redeemed_at := now, applied_at := none }] = 1 := by
                      rw [List.countP_singleton]
                      have : reservedAfter
                          { id := s.nextRedId, promoId := p.id, userId := userId,
                            status := RStatus.pending, context := "topup",
                            topup_amount_minor := some topup, payment_id := pay,
                            topup_id := tid, idempotency_key := idem,
                            reserved_until := some (now + RESERVE_TTL_MINUTES),
                            redeemed_at := now, applied_at := none } now = true := by
                        unfold reservedAfter
                        dsimp only
                        simp [RESERVE_TTL_MINUTES]
                      simp [this]
                    rw [hone]
                    have hcount : (s.redemptions.map (fun r =>
                        if r.promoId == p.id && r.status == RStatus.pending
                            && reservedBefore r now then
                          { r with status := RStatus.expired }
                        else r)).countP
                        (fun r => r.promoId == p.id && r.status == RStatus.pending
                          && reservedAfter r now) = activePendingCount s p.id now :=
                      sweep_active_count s p.id now
                    rw [sweep_active_count] at hguard
                    omega
                  · have hx : ¬ p.id = promo.id := by simpa using hpc
                    simp [hx]
                split at h
                · split at h
                  · exact absurd h (by simp)
                  · injection h with h1
                    injection h1 with hr hs
                    rw [← hr]
                    dsimp only
                    exact hmain s2 (by rw [← hs])
                · injection h with h1
                  injection h1 with hr hs
                  rw [← hr]
                  dsimp only
                  exact hmain s2 (by rw [← hs])

end Promo

namespace Promo

-- Part 2 of the oversubscription claim: a reserve request that would
-- exceed the bound raises promo_limit_reached.
theorem reserve_limit_error (s : PState) (now : Nat) (code : String)
    (userId : Nat) (topup : Int) (pay : String) (promo : PromoCode)
    (hcode : pyUpper (pyStrip code) ≠ "")
    (hpay : pay ≠ "")
    (hfind : s.promos.find? (fun p => p.code == pyUpper (pyStrip code)) = some promo)
    (hact : promo.is_active = true)
    (hw1 : promo.starts_at ≤ now) (hw2 : now ≤ promo.ends_at)
    (huser : appliedCountBy s promo.id userId < promo.max_uses_per_user)
    (hlimit : promo.max_total_uses ≤
      promo.uses_count + activePendingCount s promo.id now) :
    reserve_promo_for_topup s now code userId topup pay "" "" =
      .error (.validation "code" "promo_limit_reached") := by
  unfold reserve_promo_for_topup
  dsimp only
  have hc1 : (pyUpper (pyStrip code) == "") = false := by simpa using hcode
  rw [hc1]
  simp only [Bool.false_eq_true, if_false]
  have hc2 : (pay == "") = false := by simpa using hpay
  rw [hc2]
  simp only [Bool.false_eq_true, if_false]
  have hidem : (if (("" : String) == "") = true then (none : Option Redemption)
      else latestByRedeemedAt
        (s.redemptions.filter (fun r => r.idempotency_key == ""))) = none := rfl
  rw [hidem]
  dsimp only
  rw [hfind]
  dsimp only
  by_cases hu : promo.max_total_uses ≤ promo.uses_count
  · have hcu : can_user_redeem_applied s promo userId now =
        (false, "promo_limit_reached") := by
      unfold can_user_redeem_applied
      simp [hact, hw1, hw2, hu]
    rw [hcu]
  · have h4 : ¬(promo.max_uses_per_user ≤
        s.redemptions.countP (fun r => r.userId == userId
          && r.promoId == promo.id && r.status == RStatus.applied)) := by
      unfold appliedCountBy at huser
      omega
    have hcu : can_user_redeem_applied s promo userId now = (true, "ok") := by
      unfold can_user_redeem_applied
      simp [hact, hw1, hw2, hu, h4]
    rw [hcu]
    dsimp only
    rw [sweep_active_count]
    rw [if_pos hlimit]

end Promo

/-- Claim C10: `reserve_promo_for_topup` preserves the oversubscription
bound.  Whenever it creates a new PENDING reservation (the returned row is
the freshly inserted one), the promo's `uses_count` plus its unexpired
PENDING reservations does not exceed `max_total_uses`; and a request for an
active, in-window promo by a user under the per-user limit that would
exceed this bound raises `ValidationError({"code": "promo_limit_reached"})`
without creating a reservation (rollback leaves the state untouched). -/
theorem promo_oversubscription :
    (∀ (s : Promo.PState) (now : Nat) (code : String) (userId : Nat)
        (topup : Int) (pay tid idem : String) (red : Promo.Redemption)
        (s2 : Promo.PState),
      (∀ r ∈ s.redemptions, r.id < s.nextRedId) →
      (s.promos.map (fun p => p.id)).Nodup →
      Promo.reserve_promo_for_topup s now code userId topup pay tid idem =
        .ok (red, s2) →
      red.id = s.nextRedId →
      Promo.overSubBound s2 red.promoId now = true) ∧
    (∀ (s : Promo.PState) (now : Nat) (code : String) (userId : Nat)
        (topup : Int) (pay : String) (promo : Promo.PromoCode),
      pyUpper (pyStrip code) ≠ "" → pay ≠ "" →
      s.promos.find? (fun p => p.code == pyUpper (pyStrip code)) = some promo →
      promo.is_active = true →
      promo.starts_at ≤ now → now ≤ promo.ends_at →
      Promo.appliedCountBy s promo.id userId < promo.max_uses_per_user →
      promo.max_total_uses ≤
        promo.uses_count + Promo.activePendingCount s promo.id now →
      Promo.reserve_promo_for_topup s now code userId topup pay "" "" =
        .error (.validation "code" "promo_limit_reached")) :=
  ⟨fun s now code userId topup pay tid idem red s2 h1 h2 h3 h4 =>
    Promo.reserve_bound s now code userId topup pay tid idem red s2 h1 h2 h3 h4,
   fun s now code userId topup pay promo h1 h2 h3 h4 h5 h6 h7 h8 =>
    Promo.reserve_limit_error s now code userId topup pay promo h1 h2 h3 h4 h5 h6 h7 h8⟩

/-- Witness for the C10 theorem: reserving the fresh promo respects the
bound, and reserving the exhausted promo raises promo_limit_reached. -/
theorem promo_oversubscription_witness :
    Promo.overSubBound Promo.exReservedState 1 10 = true ∧
    Promo.reserve_promo_for_topup Promo.exFullState 10 "SALE" 7 500 "pay1" "" "" =
      .error (.validation "code" "promo_limit_reached") :=
  ⟨promo_oversubscription.1 Promo.exFreshState 10 "SALE" 7 500 "pay1" "" ""
      Promo.exReservedRed Promo.exReservedState
      (by decide) (by decide) rfl rfl,
   promo_oversubscription.2 Promo.exFullState 10 "SALE" 7 500 "pay1"
      Promo.exFullPromo
      (by decide) (by decide) rfl rfl (by decide) (by decide) (by decide) (by decide)⟩

namespace Leveling

-- A successful sortedLtB check gives strict sortedness.
theorem sortedLtB_sorted : ∀ l : List Int, sortedLtB l = true →
    l.Sorted (· < ·) := by
  intro l
  induction l with
  | nil =>
    intro h
    exact List.sorted_nil
  | cons a t ih =>
    intro h
    cases t with
    | nil => exact List.sorted_singleton a
    | cons b t2 =>
      unfold sortedLtB at h
      simp only [Bool.and_eq_true, decide_eq_true_eq] at h
      have hs := ih h.2
      rw [List.sorted_cons]
      refine ⟨?_, hs⟩
      intro c hc
      rcases List.mem_cons.mp hc with rfl | hc2
      · exact h.1
      · exact lt_trans h.1 ((List.sorted_cons.mp hs).1 c hc2)

-- The cumulative XP table is strictly increasing (31 concrete entries).
theorem table_sorted_lt : TOTAL_XP_TABLE.Sorted (· < ·) :=
  sortedLtB_sorted _ (by decide)

theorem table_sorted_le : TOTAL_XP_TABLE.Sorted (· ≤ ·) :=
  table_sorted_lt.imp (fun h => le_of_lt h)

theorem table_length : TOTAL_XP_TABLE.length = 31 := rfl

-- getD is monotone on a sorted list.
theorem sorted_getD_le {l : List Int} (h : l.Sorted (· ≤ ·)) {i j : Nat}
    (hij : i ≤ j) (hj : j < l.length) : l.getD i 0 ≤ l.getD j 0 := by
  rcases Nat.eq_or_lt_of_le hij with rfl | hlt
  · exact le_refl _
  · have hi : i < l.length := lt_trans hlt hj
    have hrel := (List.pairwise_iff_getElem.mp h) i j hi hj hlt
    rw [List.getD_eq_getElem?_getD, List.getD_eq_getElem?_getD,
      List.getElem?_eq_getElem hi, List.getElem?_eq_getElem hj]
    simpa using hrel

-- getD is strictly monotone on a strictly sorted list.
theorem sorted_getD_lt {l : List Int} (h : l.Sorted (· < ·)) {i j : Nat}
    (hij : i < j) (hj : j < l.length) : l.getD i 0 < l.getD j 0 := by
  have hi : i < l.length := lt_trans hij hj
  have hrel := (List.pairwise_iff_getElem.mp h) i j hi hj hij
  rw [List.getD_eq_getElem?_getD, List.getD_eq_getElem?_getD,
    List.getElem?_eq_getElem hi, List.getElem?_eq_getElem hj]
  simpa using hrel

-- Correctness of the bisect_right loop: it returns the insertion point.
theorem bisectGo_spec (a : List Int) (x : Int) (hs : a.Sorted (· ≤ ·)) :
    ∀ (fuel lo hi : Nat), hi ≤ a.length → hi - lo ≤ fuel → lo ≤ hi →
    (∀ i, i < lo → a.getD i 0 ≤ x) →
    (∀ i, hi ≤ i → i < a.length → x < a.getD i 0) →
    lo ≤ bisectGo a x fuel lo hi ∧ bisectGo a x fuel lo hi ≤ hi ∧
    (∀ i, i < bisectGo a x fuel lo hi → a.getD i 0 ≤ x) ∧
    (∀ i, bisectGo a x fuel lo hi ≤ i → i < a.length → x < a.getD i 0) := by
  intro fuel
  induction fuel with
  | zero =>
    intro lo hi hlen hfuel hlohi hlow hhigh
    have heq : lo = hi := by omega
    subst heq
    exact ⟨le_refl _, le_refl _, hlow, hhigh⟩
  | succ fuel ih =>
    intro lo hi hlen hfuel hlohi hlow hhigh
    have hstep : bisectGo a x (fuel + 1) lo hi =
        if lo < hi then
          (if x < a.getD ((lo + hi) / 2) 0 then bisectGo a x fuel lo ((lo + hi) / 2)
           else bisectGo a x fuel ((lo + hi) / 2 + 1) hi)
        else lo := rfl
    by_cases hlh : lo < hi
    · have hmidlo : lo ≤ (lo + hi) / 2 := by omega
      have hmidhi : (lo + hi) / 2 < hi := by omega
      rw [hstep, if_pos hlh]
      by_cases hxm : x < a.getD ((lo + hi) / 2) 0
      · rw [if_pos hxm]
        have hrec := ih lo ((lo + hi) / 2)
          (le_trans (Nat.le_of_lt hmidhi) hlen) (by omega) hmidlo hlow
          (fun i hmi hil =>
            lt_of_lt_of_le hxm (sorted_getD_le hs hmi hil))
        exact ⟨hrec.1, le_trans hrec.2.1 (Nat.le_of_lt hmidhi),
          hrec.2.2.1, hrec.2.2.2⟩
      · rw [if_neg hxm]
        have hmx : a.getD ((lo + hi) / 2) 0 ≤ x := by omega
        have hmidlen : (lo + hi) / 2 < a.length := lt_of_lt_of_le hmidhi hlen
        have hrec := ih ((lo + hi) / 2 + 1) hi hlen (by omega) (by omega)
          (fun i hi2 =>
            le_trans (sorted_getD_le hs (by omega : i ≤ (lo + hi) / 2) hmidlen) hmx)
          hhigh
        exact ⟨le_trans (by omega : lo ≤ (lo + hi) / 2 + 1) hrec.1,
          hrec.2.1, hrec.2.2.1, hrec.2.2.2⟩
    · rw [hstep, if_neg hlh]
      have heq : lo = hi := by omega
      exact ⟨le_refl _, by omega, hlow, fun i hli hil => hhigh i (by omega) hil⟩

end Leveling

namespace Leveling

-- bisect_right on the table with 0 < xp < TABLE[30] lands in [1, 30] and
-- returns the insertion point.
theorem bisect_mid (xp : Int) (h1 : 0 < xp)
    (h2 : xp < TOTAL_XP_TABLE.getD 30 0) :
    1 ≤ bisect_right TOTAL_XP_TABLE xp ∧ bisect_right TOTAL_XP_TABLE xp ≤ 30 ∧
    (∀ i, i < bisect_right TOTAL_XP_TABLE xp → TOTAL_XP_TABLE.getD i 0 ≤ xp) ∧
    (∀ i, bisect_right TOTAL_XP_TABLE xp ≤ i → i < 31 →
      xp < TOTAL_XP_TABLE.getD i 0) := by
  have hspec := bisectGo_spec TOTAL_XP_TABLE xp table_sorted_le 31 0 31
    (by rw [table_length]) (by omega) (by omega)
    (fun i hi => absurd hi (by omega))
    (fun i h31 hlen => by rw [table_length] at hlen; omega)
  have hbr : bisect_right TOTAL_XP_TABLE xp = bisectGo TOTAL_XP_TABLE xp 31 0 31 := rfl
  rw [table_length] at hspec
  obtain ⟨h01, h31b, hlow, hhigh⟩ := hspec
  rw [hbr]
  refine ⟨?_, ?_, hlow, hhigh⟩
  · by_contra hc
    have hz : bisectGo TOTAL_XP_TABLE xp 31 0 31 = 0 := by omega
    have := hhigh 0 (by omega) (by omega)
    have h0 : TOTAL_XP_TABLE.getD 0 0 = 0 := rfl
    omega
  · by_contra hc
    have h31c : bisectGo TOTAL_XP_TABLE xp 31 0 31 = 31 := by omega
    have := hlow 30 (by omega)
    omega

-- In the middle range level_for_xp is the insertion point minus one.
theorem level_mid_val (xp : Int) (h1 : 0 < xp)
    (h2 : xp < TOTAL_XP_TABLE.getD 30 0) :
    level_for_xp xp = (bisect_right TOTAL_XP_TABLE xp : Int) - 1 := by
  obtain ⟨hb1, hb30, -, -⟩ := bisect_mid xp h1 h2
  unfold level_for_xp
  rw [if_neg (by omega), if_neg (by omega)]
  unfold MAX_LEVEL
  rw [min_eq_right (by omega), max_eq_right (by omega)]

-- total_xp_for_level agrees with the table on 0..30.
theorem total_eq_getD (L : Int) (h0 : 0 ≤ L) (h30 : L ≤ 30) :
    total_xp_for_level L = TOTAL_XP_TABLE.getD L.toNat 0 := by
  unfold total_xp_for_level
  by_cases hL0 : L ≤ 0
  · have hz : L = 0 := le_antisymm hL0 h0
    subst hz
    rw [if_pos (le_refl 0)]
    rfl
  · rw [if_neg hL0]
    unfold MAX_LEVEL
    by_cases hL30 : L ≥ 30
    · have h30e : L = 30 := le_antisymm h30 hL30
      subst h30e
      rw [if_pos (by omega)]
      rfl
    · rw [if_neg hL30]

-- Round trip on every representable level.
theorem level_total_round (L : Int) (h0 : 0 ≤ L) (h30 : L ≤ 30) :
    level_for_xp (total_xp_for_level L) = L := by
  interval_cases L <;> decide

end Leveling

/-- Claim C8: `level_for_xp` maps cumulative XP to a level in 0..30: it is
0 for non-positive XP, 30 from `total_xp_for_level 30` upward, and in
between it is the greatest level whose cumulative requirement is within the
XP; consequently `level_for_xp (total_xp_for_level L) = L` for every level
0 ≤ L ≤ 30. -/
theorem level_for_xp_spec (xp : Int) :
    0 ≤ Leveling.level_for_xp xp ∧ Leveling.level_for_xp xp ≤ 30 ∧
    (xp ≤ 0 → Leveling.level_for_xp xp = 0) ∧
    (Leveling.total_xp_for_level 30 ≤ xp → Leveling.level_for_xp xp = 30) ∧
    (0 < xp → xp < Leveling.total_xp_for_level 30 →
      Leveling.total_xp_for_level (Leveling.level_for_xp xp) ≤ xp ∧
      ∀ L : Int, 0 ≤ L → L ≤ 30 → Leveling.total_xp_for_level L ≤ xp →
        L ≤ Leveling.level_for_xp xp) ∧
    (∀ L : Int, 0 ≤ L → L ≤ 30 →
      Leveling.level_for_xp (Leveling.total_xp_for_level L) = L) := by
  have htot30 : Leveling.total_xp_for_level 30 = Leveling.TOTAL_XP_TABLE.getD 30 0 := rfl
  have htot30v : Leveling.total_xp_for_level 30 = 205461 := rfl
  by_cases hneg : xp ≤ 0
  · have hz : Leveling.level_for_xp xp = 0 := by
      unfold Leveling.level_for_xp
      rw [if_pos hneg]
    refine ⟨by omega, by omega, fun _ => hz, ?_, ?_, Leveling.level_total_round⟩
    · intro hc
      omega
    · intro hp
      omega
  · by_cases hhi : Leveling.total_xp_for_level 30 ≤ xp
    · have hz : Leveling.level_for_xp xp = 30 := by
        unfold Leveling.level_for_xp
        rw [if_neg hneg, if_pos (by rw [← htot30]; exact hhi)]
        rfl
      refine ⟨by omega, by omega, fun hc => absurd hc hneg, fun _ => hz, ?_,
        Leveling.level_total_round⟩
      intro hp hlt
      omega
    · have h1 : 0 < xp := by omega
      have h2 : xp < Leveling.TOTAL_XP_TABLE.getD 30 0 := by
        rw [← htot30]
        omega
      obtain ⟨hb1, hb30, hlow, hhigh⟩ := Leveling.bisect_mid xp h1 h2
      have hval := Leveling.level_mid_val xp h1 h2
      refine ⟨by omega, by omega, fun hc => absurd hc hneg,
        fun hc => absurd hc hhi, ?_, Leveling.level_total_round⟩
      intro hp hlt
      constructor
      · rw [hval]
        rw [Leveling.total_eq_getD _ (by omega) (by omega)]
        have htn : ((Leveling.bisect_right Leveling.TOTAL_XP_TABLE xp : Int) - 1).toNat =
            Leveling.bisect_right Leveling.TOTAL_XP_TABLE xp - 1 := by
          omega
        rw [htn]
        exact hlow _ (by omega)
      · intro L hL0 hL30 hLle
        rw [hval]
        by_contra hc
        have hLi : Leveling.bisect_right Leveling.TOTAL_XP_TABLE xp ≤ L.toNat := by
          omega
        have := hhigh L.toNat hLi (by omega)
        rw [← Leveling.total_eq_getD L hL0 hL30] at this
        omega

/-- Witness for the C8 theorem at concrete XP values: 101 XP sits at level
1 (its cumulative requirement 100 is met, level 2 is not), 205461 XP is
level 30, and level 17's cumulative requirement maps back to level 17. -/
theorem level_for_xp_spec_witness :
    Leveling.total_xp_for_level (Leveling.level_for_xp 101) ≤ 101 ∧
    (1 : Int) ≤ Leveling.level_for_xp 101 ∧
    Leveling.level_for_xp 205461 = 30 ∧
    Leveling.level_for_xp (Leveling.total_xp_for_level 17) = 17 :=
  ⟨((level_for_xp_spec 101).2.2.2.2.1 (by decide) (by decide)).1,
   ((level_for_xp_spec 101).2.2.2.2.1 (by decide) (by decide)).2 1
     (by decide) (by decide) (by decide),
   (level_for_xp_spec 205461).2.2.2.1 (by decide),
   (level_for_xp_spec 0).2.2.2.2.2 17 (by decide) (by decide)⟩
